import Mathlib

/-!
# Verification of the RAMP stochastic load-profile engine

Shallow embedding of `ramp/core/core.py` and `ramp/core/stochastic_process.py`.
Minutes are natural numbers in `[0, 1440)`; powers are rationals; every random
draw of the Python code (`random.uniform`, `random.randint`, `random.gauss`,
`random.normalvariate`) is threaded explicitly as an oracle argument, together
with hypotheses stating the range guarantees of the corresponding `random`
primitive.  Helper functions that the engine imports from `ramp.core.utils`
and `ramp.core.constants` (not part of the sources under review) are modelled
from the specification where needed and marked as such.
-/

namespace RAMP

/-- A half-open minute interval `[start, stop)`.  In the Python source these
are `slice(start, stop)` values (the `free_spots` list) or two-element arrays
(`window_1` … `window_3`). -/
structure Spot where
  fst : Nat
  snd : Nat
deriving DecidableEq, Repr

/-- Minute `t` lies in the half-open interval `s`. -/
def inSpot (t : Nat) (s : Spot) : Prop := s.fst ≤ t ∧ t < s.snd

instance (t : Nat) (s : Spot) : Decidable (inSpot t s) := by
  unfold inSpot; infer_instance

/-- Minute `t` is covered by some interval of the list `l`. -/
def memSpots (t : Nat) (l : List Spot) : Prop := ∃ s ∈ l, inSpot t s

instance (t : Nat) (l : List Spot) : Decidable (memSpots t l) := by
  unfold memSpots; infer_instance

/-- Every interval of the list is well formed (`start ≤ stop`). -/
def validSpots (l : List Spot) : Prop := ∀ s ∈ l, s.fst ≤ s.snd

/-- The intervals are strictly separated: each ends strictly before the next
begins (this also makes them sorted and pairwise disjoint). -/
def sepSpots (l : List Spot) : Prop := l.Pairwise (fun a b => a.snd < b.fst)

instance (l : List Spot) : Decidable (sepSpots l) := by
  unfold sepSpots; infer_instance

instance (l : List Spot) : Decidable (validSpots l) := by
  unfold validSpots; infer_instance

/--
`Appliance.update_available_time_for_switch_on_events` (core.py lines
899-934).  `indexes` is the contiguous integer array
`[i0, i0+1, …, iN]` of the switch-on event, so only its first element `i0`
and last element `iN` matter.  The Python code scans `free_spots` for the
first slice with `indexes[0] >= fs.start and indexes[-1] <= fs.stop`, pops
it, and re-inserts 0, 1 or 2 replacement slices in place; we express the
pop-and-insert as an in-place replacement while walking the list.
-/
def update_available_time_for_switch_on_events :
    List Spot → Nat → Nat → List Spot
  | [], _, _ => []
  | s :: rest, i0, iN =>
    if s.fst ≤ i0 ∧ iN ≤ s.snd then
      (if i0 = s.fst ∧ iN = s.snd then
        ([] : List Spot)
      else if i0 = s.fst then
        [⟨iN + 1, s.snd⟩]
      else if iN = s.snd then
        [⟨s.fst, i0⟩]
      else
        [⟨s.fst, i0⟩, ⟨iN + 1, s.snd⟩]) ++ rest
    else
      s :: update_available_time_for_switch_on_events rest i0 iN

theorem memSpots_nil (t : Nat) : memSpots t [] ↔ False := by
  simp [memSpots]

theorem memSpots_cons (t : Nat) (s : Spot) (l : List Spot) :
    memSpots t (s :: l) ↔ inSpot t s ∨ memSpots t l := by
  simp [memSpots]

theorem memSpots_append (t : Nat) (l₁ l₂ : List Spot) :
    memSpots t (l₁ ++ l₂) ↔ memSpots t l₁ ∨ memSpots t l₂ := by
  simp [memSpots, or_and_right, exists_or]

/-- Every interval produced by the update lies inside some original interval. -/
theorem update_avail_shape (l : List Spot) (i0 iN : Nat) (h0 : i0 ≤ iN) :
    ∀ b ∈ update_available_time_for_switch_on_events l i0 iN,
      ∃ a ∈ l, a.fst ≤ b.fst ∧ b.snd ≤ a.snd := by
  induction l with
  | nil => intro b hb; simp [update_available_time_for_switch_on_events] at hb
  | cons s rest ih =>
    intro b hb
    by_cases hc : s.fst ≤ i0 ∧ iN ≤ s.snd
    · rw [update_available_time_for_switch_on_events, if_pos hc] at hb
      rcases List.mem_append.mp hb with hb | hb
      · refine ⟨s, List.mem_cons_self _ _, ?_⟩
        split at hb
        · simp at hb
        · split at hb
          · simp at hb
            subst hb
            exact ⟨Nat.le_trans hc.1 (Nat.le_trans h0 (Nat.le_succ iN)), Nat.le_refl _⟩
          · split at hb
            · simp at hb
              subst hb
              exact ⟨Nat.le_refl _, Nat.le_trans h0 hc.2⟩
            · simp at hb
              rcases hb with hb | hb <;> subst hb
              · exact ⟨Nat.le_refl _, Nat.le_trans h0 hc.2⟩
              · exact ⟨Nat.le_trans hc.1 (Nat.le_trans h0 (Nat.le_succ iN)),
                  Nat.le_refl _⟩
      · exact ⟨b, List.mem_cons_of_mem _ hb, Nat.le_refl _, Nat.le_refl _⟩
    · rw [update_available_time_for_switch_on_events, if_neg hc] at hb
      rcases List.mem_cons.mp hb with hb | hb
      · subst hb; exact ⟨b, List.mem_cons_self _ _, Nat.le_refl _, Nat.le_refl _⟩
      · rcases ih b hb with ⟨a, ha, h₁, h₂⟩
        exact ⟨a, List.mem_cons_of_mem _ ha, h₁, h₂⟩

/--
One update step of the free-spot bookkeeping: if the spots are strictly
separated and well formed, and the removed contiguous block `[i0, iN]` lies
strictly inside one of them (its last minute strictly below that spot's
stop), then the result is again strictly separated and well formed, and its
covered set is the original covered set minus `[i0, iN]`.
-/
theorem update_avail_step (l : List Spot) (i0 iN : Nat)
    (hsep : sepSpots l) (hval : validSpots l)
    (hcont : ∃ s ∈ l, s.fst ≤ i0 ∧ iN < s.snd) (h0 : i0 ≤ iN) :
    sepSpots (update_available_time_for_switch_on_events l i0 iN) ∧
    validSpots (update_available_time_for_switch_on_events l i0 iN) ∧
    ∀ t, memSpots t (update_available_time_for_switch_on_events l i0 iN) ↔
      memSpots t l ∧ ¬(i0 ≤ t ∧ t ≤ iN) := by
  induction l with
  | nil => rcases hcont with ⟨s, hs, _⟩; simp at hs
  | cons s rest ih =>
    rw [sepSpots, List.pairwise_cons] at hsep
    by_cases hc : s.fst ≤ i0 ∧ iN ≤ s.snd
    · -- the head spot is the one the Python scan pops
      have hNlt : iN < s.snd := by
        rcases hcont with ⟨s', hs', hf, hN⟩
        rcases List.mem_cons.mp hs' with h | h
        · subst h; exact hN
        · have := hsep.1 s' h; omega
      have hne : ¬(i0 = s.fst ∧ iN = s.snd) := by omega
      have hne2 : ¬(iN = s.snd) := by omega
      rw [update_available_time_for_switch_on_events, if_pos hc, if_neg hne]
      -- the 1- or 2-piece replacement, uniformly
      set pieces : List Spot :=
        (if i0 = s.fst then [⟨iN + 1, s.snd⟩]
         else if iN = s.snd then [⟨s.fst, i0⟩]
         else [⟨s.fst, i0⟩, ⟨iN + 1, s.snd⟩]) with hpieces
      have hmemp : ∀ t, memSpots t pieces ↔ inSpot t s ∧ ¬(i0 ≤ t ∧ t ≤ iN) := by
        intro t
        rw [hpieces]
        by_cases h1 : i0 = s.fst
        · rw [if_pos h1, memSpots_cons, memSpots_nil]
          simp only [inSpot, or_false, false_or]
          omega
        · rw [if_neg h1, if_neg hne2, memSpots_cons, memSpots_cons, memSpots_nil]
          simp only [inSpot, or_false, false_or]
          omega
      have hsubp : ∀ b ∈ pieces, s.fst ≤ b.fst ∧ b.snd ≤ s.snd ∧ b.fst ≤ b.snd := by
        intro b hb
        rw [hpieces] at hb
        rcases hc with ⟨hc1, hc2⟩
        by_cases h1 : i0 = s.fst
        · rw [if_pos h1, List.mem_singleton] at hb
          subst hb
          refine ⟨?_, ?_, ?_⟩
          · show s.fst ≤ iN + 1; omega
          · show s.snd ≤ s.snd; omega
          · show iN + 1 ≤ s.snd; omega
        · rw [if_neg h1, if_neg hne2] at hb
          rcases List.mem_cons.mp hb with hb | hb
          · subst hb
            refine ⟨?_, ?_, ?_⟩
            · show s.fst ≤ s.fst; omega
            · show i0 ≤ s.snd; omega
            · show s.fst ≤ i0; omega
          · rw [List.mem_singleton] at hb
            subst hb
            refine ⟨?_, ?_, ?_⟩
            · show s.fst ≤ iN + 1; omega
            · show s.snd ≤ s.snd; omega
            · show iN + 1 ≤ s.snd; omega
      refine ⟨?_, ?_, ?_⟩
      · -- strict separation of pieces ++ rest
        rw [sepSpots, List.pairwise_append]
        refine ⟨?_, hsep.2, ?_⟩
        · rw [hpieces]
          by_cases h1 : i0 = s.fst
          · rw [if_pos h1]
            exact List.pairwise_singleton _ _
          · rw [if_neg h1, if_neg hne2]
            refine List.pairwise_cons.mpr ⟨?_, List.pairwise_singleton _ _⟩
            intro b hb
            rw [List.mem_singleton] at hb; subst hb
            show i0 < iN + 1
            omega
        · intro a ha b hb
          exact Nat.lt_of_le_of_lt (hsubp a ha).2.1 (hsep.1 b hb)
      · intro b hb
        rcases List.mem_append.mp hb with hb | hb
        · exact (hsubp b hb).2.2
        · exact hval b (List.mem_cons_of_mem _ hb)
      · intro t
        rw [memSpots_append, hmemp t, memSpots_cons]
        constructor
        · rintro (⟨hs', hnot⟩ | hrest)
          · exact ⟨Or.inl hs', hnot⟩
          · refine ⟨Or.inr hrest, fun hcon => ?_⟩
            rcases hrest with ⟨a, ha, hin⟩
            have := hsep.1 a ha
            rcases hc with ⟨hc1, hc2⟩
            rcases hin with ⟨hin1, hin2⟩
            omega
        · rintro ⟨hs' | hrest, hnot⟩
          · exact Or.inl ⟨hs', hnot⟩
          · exact Or.inr hrest
    · -- the head spot is skipped by the scan
      have hcont' : ∃ s' ∈ rest, s'.fst ≤ i0 ∧ iN < s'.snd := by
        rcases hcont with ⟨s', hs', hf, hN⟩
        rcases List.mem_cons.mp hs' with h | h
        · subst h; exact absurd ⟨hf, Nat.le_of_lt hN⟩ hc
        · exact ⟨s', h, hf, hN⟩
      have hvr : validSpots rest := fun a ha => hval a (List.mem_cons_of_mem _ ha)
      rcases ih hsep.2 hvr hcont' with ⟨ih1, ih2, ih3⟩
      rw [update_available_time_for_switch_on_events, if_neg hc]
      have hhead : ∀ u, inSpot u s → ¬(i0 ≤ u ∧ u ≤ iN) := by
        rintro u ht ⟨hu1, hu2⟩
        rcases hcont' with ⟨s', hs', hf, _⟩
        have := hsep.1 s' hs'
        rcases ht with ⟨ht1, ht2⟩
        omega
      refine ⟨?_, ?_, ?_⟩
      · rw [sepSpots, List.pairwise_cons]
        refine ⟨?_, ih1⟩
        intro b hb
        rcases update_avail_shape rest i0 iN h0 b hb with ⟨a, ha, h₁, _⟩
        exact Nat.lt_of_lt_of_le (hsep.1 a ha) h₁
      · intro b hb
        rcases List.mem_cons.mp hb with rfl | hb
        · exact hval b (List.mem_cons_self _ _)
        · exact ih2 b hb
      · intro t
        rw [memSpots_cons, memSpots_cons, ih3 t]
        constructor
        · rintro (h | h)
          · exact ⟨Or.inl h, hhead t h⟩
          · exact ⟨Or.inr h.1, h.2⟩
        · rintro ⟨h | h, hnot⟩
          · exact Or.inl h
          · exact Or.inr ⟨h, hnot⟩

/--
The `indexes_choice` list built by `Appliance.rand_switch_on_window`
(core.py lines 1196-1199): for every free spot of length at least
`func_cycle`, the legal switch-on minutes `range(s.start, s.stop -
func_cycle + 1)` are appended in order.
-/
def indexes_choice (func_cycle : Nat) (spots : List Spot) : List Nat :=
  (spots.map (fun s =>
    if func_cycle ≤ s.snd - s.fst then
      List.range' s.fst (s.snd - func_cycle + 1 - s.fst)
    else [])).flatten

theorem mem_indexes_choice (func_cycle : Nat) (spots : List Spot) (so : Nat)
    (h : so ∈ indexes_choice func_cycle spots) :
    ∃ s ∈ spots, s.fst ≤ so ∧ so + func_cycle ≤ s.snd := by
  unfold indexes_choice at h
  rw [List.mem_flatten] at h
  rcases h with ⟨l, hl, hm⟩
  rw [List.mem_map] at hl
  rcases hl with ⟨s, hs, rfl⟩
  by_cases hg : func_cycle ≤ s.snd - s.fst
  · rw [if_pos hg, List.mem_range'_1] at hm
    exact ⟨s, hs, hm.1, by omega⟩
  · rw [if_neg hg] at hm
    exact absurd hm (List.not_mem_nil so)

theorem indexes_choice_ne_nil (func_cycle : Nat) (spots : List Spot) (s : Spot)
    (hfc : 0 < func_cycle) (hs : s ∈ spots) (hg : func_cycle ≤ s.snd - s.fst) :
    indexes_choice func_cycle spots ≠ [] := by
  intro hnil
  have : s.fst ∈ indexes_choice func_cycle spots := by
    unfold indexes_choice
    rw [List.mem_flatten]
    refine ⟨_, List.mem_map.mpr ⟨s, hs, rfl⟩, ?_⟩
    rw [if_pos hg, List.mem_range'_1]
    omega
  rw [hnil] at this
  exact List.not_mem_nil _ this

/--
`Appliance.rand_switch_on_window` (core.py lines 1186-1228).  `kf n` models
`random.randint(0, n-1)` and `uf a b` models `random.uniform(a, b)`; the
Python duration draw `int(random.uniform(func_cycle, largest_duration))`
is the floor of the uniform draw.  The function returns the pair
(`switch_on`, length); the code materialises it as
`np.arange(switch_on, switch_on + length)`.  The code's defensive paths
(containing spot not found, `largest_duration < func_cycle` which raises
`ValueError`) are mapped to `none`; `rand_switch_on_window_spec` proves they
are not reachable under the call conditions of `generate_load_profile`.
-/
def rand_switch_on_window (func_cycle rand_time : Nat) (spots : List Spot)
    (kf : Nat → Nat) (uf : ℚ → ℚ → ℚ) : Option (Nat × Nat) :=
  let choices := indexes_choice func_cycle spots
  if 0 < choices.length then
    let switch_on := choices.getD (kf choices.length) 0
    match spots.find? (fun fs =>
        decide (fs.fst ≤ switch_on) && decide (switch_on + func_cycle ≤ fs.snd)) with
    | none => none
    | some fs =>
      let largest_duration := min rand_time (fs.snd - switch_on)
      if func_cycle < largest_duration then
        some (switch_on,
          (Int.floor (uf (func_cycle : ℚ) (largest_duration : ℚ))).toNat)
      else if largest_duration = func_cycle then
        some (switch_on, largest_duration)
      else none
  else none

/--
Behaviour of `rand_switch_on_window` under the guarantees of the `random`
module: it returns `none` exactly when no free spot is at least
`func_cycle` long; otherwise the chosen minute is the `kf`-th element of
`indexes_choice`, the emitted interval starts there, has length between
`func_cycle` and `min rand_time (s.stop - switch_on)`, and fits inside the
single free spot the scan locates.
-/
theorem rand_switch_on_window_behavior (fc rt : Nat) (spots : List Spot)
    (kf : Nat → Nat) (uf : ℚ → ℚ → ℚ)
    (hfc : 0 < fc) (hrt : fc ≤ rt)
    (hk : ∀ n, 0 < n → kf n < n)
    (hu : ∀ a b : ℚ, a ≤ b → a ≤ uf a b ∧ uf a b ≤ b) :
    (rand_switch_on_window fc rt spots kf uf = none ↔
      ∀ s ∈ spots, s.snd - s.fst < fc) ∧
    ∀ so L, rand_switch_on_window fc rt spots kf uf = some (so, L) →
      so = (indexes_choice fc spots).getD (kf (indexes_choice fc spots).length) 0 ∧
      so ∈ indexes_choice fc spots ∧
      fc ≤ L ∧
      ∃ s ∈ spots, s.fst ≤ so ∧ so + L ≤ s.snd ∧ L ≤ min rt (s.snd - so) := by
  by_cases hpos : 0 < (indexes_choice fc spots).length
  · have hkf := hk _ hpos
    set so := (indexes_choice fc spots).getD (kf (indexes_choice fc spots).length) 0
      with hso
    have hso_mem : so ∈ indexes_choice fc spots := by
      rw [hso, List.getD_eq_getElem _ _ hkf]
      exact List.getElem_mem _
    obtain ⟨sc, hsc, hsc1, hsc2⟩ := mem_indexes_choice fc spots so hso_mem
    have hfind : ∃ fs, spots.find? (fun fs =>
        decide (fs.fst ≤ so) && decide (so + fc ≤ fs.snd)) = some fs := by
      have h1 : ((spots.find? (fun fs =>
          decide (fs.fst ≤ so) && decide (so + fc ≤ fs.snd))).isSome) := by
        rw [List.find?_isSome]
        exact ⟨sc, hsc, by simp [hsc1, hsc2]⟩
      exact Option.isSome_iff_exists.mp h1
    obtain ⟨fs, hfs⟩ := hfind
    have hpfs := List.find?_some hfs
    rw [Bool.and_eq_true, decide_eq_true_eq, decide_eq_true_eq] at hpfs
    have hfs_mem := List.mem_of_find?_eq_some hfs
    have hld : fc ≤ min rt (fs.snd - so) := by omega
    have hres : ∀ so' L, rand_switch_on_window fc rt spots kf uf = some (so', L) →
        so' = so ∧ fc ≤ L ∧ so + L ≤ fs.snd ∧ L ≤ min rt (fs.snd - so) := by
      intro so' L hr
      rw [rand_switch_on_window] at hr
      simp only [← hso, if_pos hpos, hfs] at hr
      by_cases hgt : fc < min rt (fs.snd - so)
      · rw [if_pos hgt] at hr
        injection Option.some.inj hr with h1 h2
        subst h1
        subst h2
        have hcast : (fc : ℚ) ≤ ((min rt (fs.snd - so) : Nat) : ℚ) := by
          exact_mod_cast Nat.le_of_lt hgt
        obtain ⟨hu1, hu2⟩ := hu _ _ hcast
        have hf1 : (fc : ℤ) ≤ Int.floor (uf (fc : ℚ) ((min rt (fs.snd - so) : Nat) : ℚ)) := by
          rw [Int.le_floor]
          exact_mod_cast hu1
        have hf2 : Int.floor (uf (fc : ℚ) ((min rt (fs.snd - so) : Nat) : ℚ)) ≤
            ((min rt (fs.snd - so) : Nat) : ℤ) := by
          have := (Int.floor_le_floor hu2).trans_eq (Int.floor_natCast _)
          exact this
        constructor
        · rfl
        · omega
      · rw [if_neg hgt] at hr
        have heq : min rt (fs.snd - so) = fc := by omega
        rw [if_pos heq] at hr
        injection Option.some.inj hr with h1 h2
        subst h1
        subst h2
        refine ⟨rfl, by omega, by omega, by omega⟩
    have hnn : rand_switch_on_window fc rt spots kf uf ≠ none := by
      rw [rand_switch_on_window]
      simp only [← hso, if_pos hpos, hfs]
      by_cases hgt : fc < min rt (fs.snd - so)
      · rw [if_pos hgt]; exact Option.some_ne_none _
      · rw [if_neg hgt]
        have heq : min rt (fs.snd - so) = fc := by omega
        rw [if_pos heq]; exact Option.some_ne_none _
    constructor
    · constructor
      · intro h; exact absurd h hnn
      · intro hall
        have := hall sc hsc
        omega
    · intro so' L hr
      obtain ⟨rfl, hL1, hL2, hL3⟩ := hres so' L hr
      exact ⟨hso, hso_mem, hL1, fs, hfs_mem, hpfs.1, hL2, hL3⟩
  · have hnone : rand_switch_on_window fc rt spots kf uf = none := by
      rw [rand_switch_on_window]
      simp only [if_neg hpos]
    constructor
    · constructor
      · intro _ s hs
        by_contra hlt
        exact absurd (List.length_pos.mpr
          (indexes_choice_ne_nil fc spots s hfc hs (by omega))) hpos
      · intro _; exact hnone
    · intro so L hr
      rw [hnone] at hr
      exact absurd hr (Option.noConfusion)

/-- The error kinds surfaced by the engine (`ValueError` / `IndexError`
sites in core.py). -/
inductive RampError where
  | invalidDayIndex
  | funcCycleTooLarge
  | negativeDimensions
  | indexError0d
  | wrongPowerArraySize
  | wrongPowerDataType
deriving DecidableEq, Repr

/-- Python `round` / NumPy `np.round` on a scalar: round half to even. -/
def pyRound (q : ℚ) : ℤ :=
  let f := ⌊q⌋
  let r := q - (f : ℚ)
  if r < 1/2 then f
  else if 1/2 < r then f + 1
  else if Even f then f else f + 1

/-- Python `int(...)` on a float: truncation toward zero. -/
def pyInt (q : ℚ) : ℤ := if 0 ≤ q then ⌊q⌋ else -⌊-q⌋

/-- Modelled from the spec: `random_variation(var, norm)` from
`ramp.core.utils` (absent from the sources under review) returns
`norm * uniform(1 - var, 1 + var)` when `var > 0` and `norm` otherwise;
`uf` is the underlying `random.uniform`. -/
def random_variation (uf : ℚ → ℚ → ℚ) (var : ℚ) (norm : ℚ) : ℚ :=
  if 0 < var then norm * uf (1 - var) (1 + var) else norm

/-- Modelled from the spec: `within_peak_time_window` from
`ramp.core.utils` (absent from the sources under review) is the standard
interval-overlap test `I.first ≤ peak.last ∧ peak.first ≤ I.last`. -/
def within_peak_time_window (iFirst iLast pFirst pLast : ℤ) : Bool :=
  decide (iFirst ≤ pLast ∧ pFirst ≤ iLast)

/--
`Appliance.calc_rand_window` (core.py lines 962-972): the jittered window
`[randint(w.start - rv, w.start + rv), randint(w.end - rv, w.end + rv)]`
with the start clamped below at 0 and the end clamped above at 1440.
`dS`, `dE` are the two `randint` draws.  The result is a pair of Python
ints (the end is not clamped below, the start not clamped above).
-/
def calc_rand_window (dS dE : ℤ) : ℤ × ℤ :=
  (if dS < 0 then 0 else dS, if 1440 < dE then 1440 else dE)

/--
The assignment `daily_use[a:b] = np.full(b - a, v)` used by
`Appliance.windows`, the flat branch and the non-flat mask of
`Appliance.generate_load_profile`: `np.full` raises `ValueError` on a
negative length, otherwise the minutes of `[a, b)` are set to `v`
(after the source's clamping, `a ≥ 0`, so no Python negative-index
wrap-around can occur on the non-error path).
-/
def fill_slice (du : Nat → ℚ) (w : ℤ × ℤ) (v : ℚ) :
    Except RampError (Nat → ℚ) :=
  if w.2 - w.1 < 0 then .error .negativeDimensions
  else .ok (fun t => if w.1 ≤ (t : ℤ) ∧ (t : ℤ) < w.2 then v else du t)

/-- Successive `fill_slice` assignments, one per window, in source order. -/
def fill_windows (du : Nat → ℚ) (rws : List (ℤ × ℤ)) (v : ℚ) :
    Except RampError (Nat → ℚ) :=
  match rws with
  | [] => .ok du
  | w :: rest =>
    match fill_slice du w v with
    | .error e => .error e
    | .ok du1 => fill_windows du1 rest v

/--
`Appliance.rand_total_time_of_use` (core.py lines 1153-1184).  `varU` is
the uniform draw inside `random_variation` applied to
`time_fraction_random_variability`; `timeU` is the draw of
`random.uniform(func_time, int(func_time * random_var_t))`.  The windows
are the three jittered windows; their sizes are summed as Python ints.
Raises (`funcCycleTooLarge`) when the randomised time still falls below
`func_cycle` after capping at `int(0.99 * total_time)`.
-/
def rand_total_time_of_use (func_time func_cycle : Nat) (tfrv : ℚ)
    (rw1 rw2 rw3 : ℤ × ℤ) (varU timeU : ℚ → ℚ → ℚ) :
    Except RampError Nat :=
  let random_var_t := random_variation varU tfrv 1
  let rand_time0 :=
    pyRound (timeU (func_time : ℚ) ((pyInt ((func_time : ℚ) * random_var_t)) : ℚ))
  let rand_time1 := if rand_time0 < (func_cycle : ℤ) then (func_cycle : ℤ) else rand_time0
  let total_time := (rw1.2 - rw1.1) + (rw2.2 - rw2.1) + (rw3.2 - rw3.1)
  let rand_time2 :=
    if (99/100 : ℚ) * (total_time : ℚ) < (rand_time1 : ℚ) then
      pyInt ((99/100 : ℚ) * (total_time : ℚ))
    else rand_time1
  if rand_time2 < (func_cycle : ℤ) then .error .funcCycleTooLarge
  else .ok rand_time2.toNat

/--
`np.put(daily_use, indexes, vals)` with the contiguous index block
`[i0, i0 + L)`: NumPy repeats `vals` cyclically over the indexes.  (With
an empty `vals` and a non-empty index block NumPy raises; that corner is
unreachable in the claims under verification and the profile is left
unchanged there.)
-/
def np_put (du : Nat → ℚ) (i0 L : Nat) (vals : List ℚ) : Nat → ℚ :=
  fun t =>
    if i0 ≤ t ∧ t < i0 + L ∧ vals ≠ [] then vals.getD ((t - i0) % vals.length) 0
    else du t

/--
`Appliance.calc_coincident_switch_on` (core.py lines 1230-1263).
`s_peak`, `mu_peak`, `op_factor` are the constants of
`ramp.core.constants.switch_on_parameters` (absent from the sources under
review), threaded as parameters.  `gaussD` models the
`random.gauss(number * mu_peak + 0.5, s_peak * number * mu_peak)` draw
(unbounded support, hence no hypothesis); `unifD` models
`random.uniform(0, (number - op_factor) / number)`.  The off-peak branch
takes `np.max(np.where(prob >= np.arange(0, number) / number)) + 1`, with
the empty-`where` `ValueError` caught and mapped to 1.
-/
def calc_coincident_switch_on (number : Nat) (fixed : Bool)
    (inside_peak_window : Bool) (s_peak mu_peak op_factor : ℚ)
    (gaussD unifD : ℚ) : ℤ :=
  if inside_peak_window ∧ fixed = false then
    min (number : ℤ) (max 1 ⌈gaussD⌉)
  else if inside_peak_window = false ∧ fixed = false then
    match ((List.range number).filter
        (fun (i : Nat) => decide ((i : ℚ) / (number : ℚ) ≤ unifD))).max? with
    | some m => (m : ℤ) + 1
    | none => 1
  else (number : ℤ)

/--
`Appliance.update_daily_use` (core.py lines 936-960): writes the switch-on
event into `daily_use` — dispatching on the duty cycles via the rounded
midpoint of the index block when `fixed_cycle > 0`, else a constant
`random_variation(thermal_p_var, coincidence * power)` — and then removes
the block from `free_spots`.  `c1 c2 c3` are the realized
`random_cycle1/2/3` waveforms of the day and `thermU` the uniform draw
inside the thermal `random_variation`.
-/
def update_daily_use (fixed_cycle : Nat) (cw11 cw12 cw21 cw22 : Spot)
    (c1 c2 c3 : List ℚ) (thermal_p_var : ℚ) (thermU : ℚ → ℚ → ℚ)
    (coincidence : ℤ) (power : ℚ) (du : Nat → ℚ) (spots : List Spot)
    (i0 L : Nat) : (Nat → ℚ) × List Spot :=
  let du1 :=
    if 0 < fixed_cycle then
      let evaluate : ℤ := if 0 < L then pyRound ((i0 : ℚ) + ((L : ℚ) - 1) / 2) else 0
      let cyc :=
        if ((cw11.fst : ℤ) ≤ evaluate ∧ evaluate < (cw11.snd : ℤ)) ∨
           ((cw12.fst : ℤ) ≤ evaluate ∧ evaluate < (cw12.snd : ℤ)) then c1
        else if ((cw21.fst : ℤ) ≤ evaluate ∧ evaluate < (cw21.snd : ℤ)) ∨
           ((cw22.fst : ℤ) ≤ evaluate ∧ evaluate < (cw22.snd : ℤ)) then c2
        else c3
      np_put du i0 L (cyc.map (fun p => p * (coincidence : ℚ)))
    else
      np_put du i0 L [random_variation thermU thermal_p_var ((coincidence : ℚ) * power)]
  (du1, update_available_time_for_switch_on_events spots i0 (i0 + L - 1))

/--
The `day_type` argument as it flows through the Python code: the sequential
driver hands `UseCase.generate_daily_load_profiles` its `day_types`
argument through unchanged (a scalar or a list), while the parallel driver
indexes it first.  The eligibility test `self.wd_we_type not in [day_type,
2]` compares an int against the argument, so a list-valued argument can
only ever match via the literal 2.
-/
inductive DayTypeArg where
  | scalar (d : Nat)
  | seq (l : List Nat)
deriving DecidableEq, Repr

/-- The membership test `wd_we_type in [day_type, 2]` of
`Appliance.generate_load_profile` (core.py line 1287). -/
def wdWeMatches (wd : Nat) (dt : DayTypeArg) : Bool :=
  (dt == DayTypeArg.scalar wd) || (wd == 2)

/--
All random draws consumed by one `Appliance.generate_load_profile` call,
threaded explicitly.  `occ` is `random.uniform(0,1)` for the occasional-use
test; `pref n` is `randint(1, n)`; `winDraw i lo hi` the six
`randint` draws of the window jitter; `varU`/`timeU` the uniform draws of
`rand_total_time_of_use`; `cycles k` the realized `random_cycle{k}`
waveform of the day (their construction lives in `ramp.core.utils`, absent
from the sources under review, and no claim depends on the waveform
values); `kDraw iter n` and `durU iter` the per-iteration draws of
`rand_switch_on_window`; `gaussD`/`coincU` the per-iteration coincidence
draws; `thermU iter` the uniform draw inside the thermal
`random_variation` of `update_daily_use`.
-/
structure Oracle where
  occ : ℚ
  pref : Nat → Nat
  winDraw : Nat → ℤ → ℤ → ℤ
  varU : ℚ → ℚ → ℚ
  timeU : ℚ → ℚ → ℚ
  cycles : Nat → List ℚ
  kDraw : Nat → Nat → Nat
  durU : Nat → ℚ → ℚ → ℚ
  gaussD : Nat → ℚ
  coincU : Nat → ℚ
  thermU : Nat → ℚ → ℚ → ℚ

/-- The range guarantees of the Python `random` primitives backing an
`Oracle`: `uniform(a, b)` lies between `a` and `b` (in either order),
`randint(lo, hi)` lies in `[lo, hi]` when `lo ≤ hi`, and
`randint(0, n-1)` is below `n`. -/
def Oracle.Conformant (O : Oracle) : Prop :=
  (0 ≤ O.occ ∧ O.occ ≤ 1) ∧
  (∀ n, 1 ≤ n → 1 ≤ O.pref n ∧ O.pref n ≤ n) ∧
  (∀ i lo hi, lo ≤ hi → lo ≤ O.winDraw i lo hi ∧ O.winDraw i lo hi ≤ hi) ∧
  (∀ a b, min a b ≤ O.varU a b ∧ O.varU a b ≤ max a b) ∧
  (∀ a b, min a b ≤ O.timeU a b ∧ O.timeU a b ≤ max a b) ∧
  (∀ i n, 0 < n → O.kDraw i n < n) ∧
  (∀ i a b, a ≤ b → a ≤ O.durU i a b ∧ O.durU i a b ≤ b)

/--
The static configuration of an `Appliance` (core.py lines 541-691 and
`windows`, lines 794-873), restricted to the fields the profile generator
reads.  `fixed` and `flat` are `true` for the string value `"yes"`;
`random_var_1..3` are the integers `int(random_var_w * np.diff(window_i))`
computed by `windows`.
-/
structure Appliance where
  number : Nat
  power : List ℚ
  num_windows : Nat
  func_time : Nat
  time_fraction_random_variability : ℚ
  func_cycle : Nat
  fixed : Bool
  fixed_cycle : Nat
  occasional_use : ℚ
  flat : Bool
  thermal_p_var : ℚ
  pref_index : Nat
  wd_we_type : Nat
  window_1 : Spot
  window_2 : Spot
  window_3 : Spot
  random_var_1 : Nat
  random_var_2 : Nat
  random_var_3 : Nat
  cw11 : Spot
  cw12 : Spot
  cw21 : Spot
  cw22 : Spot

/-- `free_spots = [slice(rw[0], rw[1]) for rw in rand_windows if rw[0] !=
rw[1]]` (core.py line 1326).  On the non-error path of the mask filling
every retained window already satisfies `0 ≤ rw[0] ≤ rw[1]`, so the `toNat`
coercions are exact. -/
def free_spots_init (rws : List (ℤ × ℤ)) : List Spot :=
  (rws.filter (fun rw => rw.1 != rw.2)).map (fun rw => ⟨rw.1.toNat, rw.2.toNat⟩)

/--
The switch-on while-loop of `Appliance.generate_load_profile` (core.py
lines 1328-1375), with explicit fuel (the caller passes `rand_time + 1`,
enough for the loop's `tot_time` budget since every drawn event has
positive length).  Returns the final `daily_use`, the final `free_spots`
and — as specification ghost state — the list of applied switch-on events
`(switch_on, length)` of this invocation.
-/
def switch_on_loop (app : Appliance) (rand_time : Nat) (peakF peakL : ℤ)
    (power : ℚ) (sp mp opf : ℚ) (O : Oracle) :
    Nat → Nat → Nat → (Nat → ℚ) → List Spot →
    ((Nat → ℚ) × List Spot × List (Nat × Nat))
  | 0, _, _, du, spots => (du, spots, [])
  | fuel + 1, iter, tot, du, spots =>
    if tot ≤ rand_time then
      match rand_switch_on_window app.func_cycle rand_time spots
          (O.kDraw iter) (O.durU iter) with
      | none => (du, spots, [])
      | some (so, L) =>
        if rand_time < tot + L then
          let Ladj := L - (tot + L - rand_time)
          if 0 < Ladj then
            let inside := within_peak_time_window (so : ℤ)
              ((so + Ladj - 1 : Nat) : ℤ) peakF peakL
            let coincidence := calc_coincident_switch_on app.number app.fixed
              inside sp mp opf (O.gaussD iter) (O.coincU iter)
            let r := update_daily_use app.fixed_cycle app.cw11 app.cw12
              app.cw21 app.cw22 (O.cycles 1) (O.cycles 2) (O.cycles 3)
              app.thermal_p_var (O.thermU iter) coincidence power du spots so Ladj
            (r.1, r.2, [(so, Ladj)])
          else (du, spots, [])
        else
          let inside := within_peak_time_window (so : ℤ)
            ((so + L - 1 : Nat) : ℤ) peakF peakL
          let coincidence := calc_coincident_switch_on app.number app.fixed
            inside sp mp opf (O.gaussD iter) (O.coincU iter)
          let r := update_daily_use app.fixed_cycle app.cw11 app.cw12
            app.cw21 app.cw22 (O.cycles 1) (O.cycles 2) (O.cycles 3)
            app.thermal_p_var (O.thermU iter) coincidence power du spots so L
          let rec1 := switch_on_loop app rand_time peakF peakL power sp mp opf O
            fuel (iter + 1) (tot + L) r.1 r.2
          (rec1.1, rec1.2.1, (so, L) :: rec1.2.2)
    else (du, spots, [])

/-- The first jittered window of `Appliance.generate_load_profile`
(core.py lines 1292-1295): `calc_rand_window(window_idx=1)` with the two
`randint` draws `O.winDraw 0` and `O.winDraw 1`. -/
def rand_window_1 (app : Appliance) (O : Oracle) : ℤ × ℤ :=
  calc_rand_window
    (O.winDraw 0 ((app.window_1.fst : ℤ) - app.random_var_1)
      ((app.window_1.fst : ℤ) + app.random_var_1))
    (O.winDraw 1 ((app.window_1.snd : ℤ) - app.random_var_1)
      ((app.window_1.snd : ℤ) + app.random_var_1))

/-- The second jittered window (`calc_rand_window(window_idx=2)`). -/
def rand_window_2 (app : Appliance) (O : Oracle) : ℤ × ℤ :=
  calc_rand_window
    (O.winDraw 2 ((app.window_2.fst : ℤ) - app.random_var_2)
      ((app.window_2.fst : ℤ) + app.random_var_2))
    (O.winDraw 3 ((app.window_2.snd : ℤ) - app.random_var_2)
      ((app.window_2.snd : ℤ) + app.random_var_2))

/-- The third jittered window (`calc_rand_window(window_idx=3)`). -/
def rand_window_3 (app : Appliance) (O : Oracle) : ℤ × ℤ :=
  calc_rand_window
    (O.winDraw 4 ((app.window_3.fst : ℤ) - app.random_var_3)
      ((app.window_3.fst : ℤ) + app.random_var_3))
    (O.winDraw 5 ((app.window_3.snd : ℤ) - app.random_var_3)
      ((app.window_3.snd : ℤ) + app.random_var_3))

/--
`Appliance.generate_load_profile` (core.py lines 1265-1375).  `day_type`
is the argument as passed by the caller (the sequential driver passes its
`day_types` argument through unchanged); `power` is the scalar
`App.power[prof_i]` supplied by the caller; `sp mp opf` are the
`switch_on_parameters` constants.  Returns the final `daily_use` together
with the ghost list of applied switch-on events (empty for a skipped or
flat appliance).
-/
def generate_load_profile (app : Appliance) (user_preference : Nat)
    (peakF peakL : ℤ) (day_type : DayTypeArg)
    (power : ℚ) (sp mp opf : ℚ) (O : Oracle) :
    Except RampError ((Nat → ℚ) × List (Nat × Nat)) :=
  let rand_daily_pref := if user_preference = 0 then 0 else O.pref user_preference
  if app.occasional_use < O.occ ∨
     (app.pref_index ≠ 0 ∧ rand_daily_pref ≠ app.pref_index) ∨
     wdWeMatches app.wd_we_type day_type = false then
    .ok (fun _ => 0, [])
  else
    let rw1 := rand_window_1 app O
    let rw2 := rand_window_2 app O
    let rw3 := rand_window_3 app O
    match rand_total_time_of_use app.func_time app.func_cycle
        app.time_fraction_random_variability rw1 rw2 rw3 O.varU O.timeU with
    | .error e => .error e
    | .ok rand_time =>
      if app.flat then
        match fill_windows (fun _ => 0) [rw1, rw2, rw3]
            (power * (app.number : ℚ)) with
        | .error e => .error e
        | .ok du => .ok (du, [])
      else
        match fill_windows (fun _ => 0) [rw1, rw2, rw3] (1/1000) with
        | .error e => .error e
        | .ok masked =>
          let spots := free_spots_init [rw1, rw2, rw3]
          let r := switch_on_loop app rand_time peakF peakL power sp mp opf O
            (rand_time + 1) 0 0 masked spots
          .ok (r.1, r.2.2)

theorem np_put_outside (du : Nat → ℚ) (i0 L : Nat) (vals : List ℚ) (t : Nat)
    (h : ¬(i0 ≤ t ∧ t < i0 + L)) : np_put du i0 L vals t = du t := by
  unfold np_put
  rw [if_neg]
  intro hcon
  exact h ⟨hcon.1, hcon.2.1⟩

theorem update_daily_use_fst_outside (fixed_cycle : Nat)
    (cw11 cw12 cw21 cw22 : Spot) (c1 c2 c3 : List ℚ) (tpv : ℚ)
    (thermU : ℚ → ℚ → ℚ) (coincidence : ℤ) (power : ℚ) (du : Nat → ℚ)
    (spots : List Spot) (i0 L t : Nat) (h : ¬(i0 ≤ t ∧ t < i0 + L)) :
    (update_daily_use fixed_cycle cw11 cw12 cw21 cw22 c1 c2 c3 tpv thermU
      coincidence power du spots i0 L).1 t = du t := by
  unfold update_daily_use
  by_cases hfc : 0 < fixed_cycle
  · simp only [if_pos hfc]
    exact np_put_outside _ _ _ _ _ h
  · simp only [if_neg hfc]
    exact np_put_outside _ _ _ _ _ h

theorem update_daily_use_snd (fixed_cycle : Nat)
    (cw11 cw12 cw21 cw22 : Spot) (c1 c2 c3 : List ℚ) (tpv : ℚ)
    (thermU : ℚ → ℚ → ℚ) (coincidence : ℤ) (power : ℚ) (du : Nat → ℚ)
    (spots : List Spot) (i0 L : Nat) :
    (update_daily_use fixed_cycle cw11 cw12 cw21 cw22 c1 c2 c3 tpv thermU
      coincidence power du spots i0 L).2 =
    update_available_time_for_switch_on_events spots i0 (i0 + L - 1) := rfl

/--
The free-spots loop invariant: starting from strictly separated, well
formed spots, every iteration of the switch-on loop keeps the list
strictly separated and well formed, every recorded event has positive
length, and the covered set of the final list is the initial covered set
minus the recorded events.
-/
theorem switch_on_loop_free_spots (app : Appliance) (rand_time : Nat)
    (peakF peakL : ℤ) (power sp mp opf : ℚ) (O : Oracle)
    (hfc : 0 < app.func_cycle) (hrt : app.func_cycle ≤ rand_time)
    (hk : ∀ i n, 0 < n → O.kDraw i n < n)
    (hdu : ∀ i a b, a ≤ b → a ≤ O.durU i a b ∧ O.durU i a b ≤ b) :
    ∀ fuel iter tot du spots, sepSpots spots → validSpots spots →
      sepSpots (switch_on_loop app rand_time peakF peakL power sp mp opf O
        fuel iter tot du spots).2.1 ∧
      validSpots (switch_on_loop app rand_time peakF peakL power sp mp opf O
        fuel iter tot du spots).2.1 ∧
      (∀ p ∈ (switch_on_loop app rand_time peakF peakL power sp mp opf O
        fuel iter tot du spots).2.2, 0 < p.2) ∧
      (∀ t, memSpots t (switch_on_loop app rand_time peakF peakL power sp mp opf O
          fuel iter tot du spots).2.1 ↔
        (memSpots t spots ∧
          ∀ p ∈ (switch_on_loop app rand_time peakF peakL power sp mp opf O
            fuel iter tot du spots).2.2, ¬(p.1 ≤ t ∧ t < p.1 + p.2))) := by
  intro fuel
  induction fuel with
  | zero =>
    intro iter tot du spots hsep hval
    refine ⟨hsep, hval, ?_, ?_⟩
    · intro p hp; simp [switch_on_loop] at hp
    · intro t; simp [switch_on_loop]
  | succ fuel ih =>
    intro iter tot du spots hsep hval
    rw [switch_on_loop]
    by_cases htot : tot ≤ rand_time
    · rw [if_pos htot]
      obtain ⟨hbeh1, hbeh2⟩ := rand_switch_on_window_behavior app.func_cycle
        rand_time spots (O.kDraw iter) (O.durU iter) hfc hrt (hk iter) (hdu iter)
      cases hsw : rand_switch_on_window app.func_cycle rand_time spots
          (O.kDraw iter) (O.durU iter) with
      | none =>
        simp only []
        refine ⟨hsep, hval, ?_, ?_⟩
        · intro p hp; simp at hp
        · intro t; simp
      | some v =>
        obtain ⟨so, L⟩ := v
        simp only []
        obtain ⟨_, _, hL, s, hs, hs1, hs2, _⟩ := hbeh2 so L hsw
        by_cases hover : rand_time < tot + L
        · rw [if_pos hover]
          by_cases hadj : 0 < L - (tot + L - rand_time)
          · rw [if_pos hadj]
            simp only [update_daily_use_snd]
            set Ladj := L - (tot + L - rand_time) with hLadj
            have hstep := update_avail_step spots so (so + Ladj - 1) hsep hval
              ⟨s, hs, hs1, by omega⟩ (by omega)
            refine ⟨hstep.1, hstep.2.1, ?_, ?_⟩
            · intro p hp
              rw [List.mem_singleton] at hp
              subst hp
              exact hadj
            · intro t
              rw [hstep.2.2 t]
              constructor
              · rintro ⟨hm, hn⟩
                refine ⟨hm, ?_⟩
                intro p hp
                rw [List.mem_singleton] at hp
                subst hp
                simp only []
                omega
              · rintro ⟨hm, hn⟩
                refine ⟨hm, ?_⟩
                have := hn (so, Ladj) (List.mem_singleton.mpr rfl)
                simp only [] at this
                omega
          · rw [if_neg hadj]
            refine ⟨hsep, hval, ?_, ?_⟩
            · intro p hp; simp at hp
            · intro t; simp
        · rw [if_neg hover]
          simp only [update_daily_use_snd]
          have hstep := update_avail_step spots so (so + L - 1) hsep hval
            ⟨s, hs, hs1, by omega⟩ (by omega)
          obtain ⟨ih1, ih2, ih3, ih4⟩ := ih (iter + 1) (tot + L) _ _ hstep.1 hstep.2.1
          refine ⟨ih1, ih2, ?_, ?_⟩
          · intro p hp
            rcases List.mem_cons.mp hp with hp | hp
            · subst hp; simp only []; omega
            · exact ih3 p hp
          · intro t
            rw [ih4 t, hstep.2.2 t]
            constructor
            · rintro ⟨⟨hm, hb⟩, hn⟩
              refine ⟨hm, ?_⟩
              intro p hp
              rcases List.mem_cons.mp hp with hp | hp
              · subst hp; simp only []; omega
              · exact hn p hp
            · rintro ⟨hm, hn⟩
              have h1 := hn (so, L) (List.mem_cons_self _ _)
              simp only [] at h1
              refine ⟨⟨hm, by omega⟩, ?_⟩
              intro p hp
              exact hn p (List.mem_cons_of_mem _ hp)
    · rw [if_neg htot]
      refine ⟨hsep, hval, ?_, ?_⟩
      · intro p hp; simp at hp
      · intro t; simp

/--
Minutes not covered by any recorded switch-on event are never written by
the loop: the final `daily_use` agrees with the initial one there.
-/
theorem switch_on_loop_daily_use_outside (app : Appliance) (rand_time : Nat)
    (peakF peakL : ℤ) (power sp mp opf : ℚ) (O : Oracle) :
    ∀ fuel iter tot du spots t,
      (∀ p ∈ (switch_on_loop app rand_time peakF peakL power sp mp opf O
        fuel iter tot du spots).2.2, ¬(p.1 ≤ t ∧ t < p.1 + p.2)) →
      (switch_on_loop app rand_time peakF peakL power sp mp opf O
        fuel iter tot du spots).1 t = du t := by
  intro fuel
  induction fuel with
  | zero => intro iter tot du spots t _; rw [switch_on_loop]
  | succ fuel ih =>
    intro iter tot du spots t hn
    rw [switch_on_loop] at hn ⊢
    by_cases htot : tot ≤ rand_time
    · rw [if_pos htot] at hn ⊢
      cases hsw : rand_switch_on_window app.func_cycle rand_time spots
          (O.kDraw iter) (O.durU iter) with
      | none => rfl
      | some v =>
        obtain ⟨so, L⟩ := v
        rw [hsw] at hn
        simp only [] at hn ⊢
        by_cases hover : rand_time < tot + L
        · rw [if_pos hover] at hn ⊢
          by_cases hadj : 0 < L - (tot + L - rand_time)
          · rw [if_pos hadj] at hn ⊢
            have h1 := hn (so, L - (tot + L - rand_time)) (List.mem_singleton.mpr rfl)
            simp only [] at h1
            exact update_daily_use_fst_outside _ _ _ _ _ _ _ _ _ _ _ _ _ spots _ _ _ h1
          · rw [if_neg hadj] at hn ⊢
        · rw [if_neg hover] at hn ⊢
          have h1 := hn (so, L) (List.mem_cons_self _ _)
          simp only [] at h1
          have h2 := fun p hp => hn p (List.mem_cons_of_mem _ hp)
          rw [ih _ _ _ _ t h2]
          exact update_daily_use_fst_outside _ _ _ _ _ _ _ _ _ _ _ _ _ spots _ _ _ h1
    · rw [if_neg htot] at hn ⊢

/-- Minute `t` lies inside one of the int-pair windows. -/
def memZ (t : Nat) (rws : List (ℤ × ℤ)) : Prop :=
  ∃ rw ∈ rws, rw.1 ≤ (t : ℤ) ∧ (t : ℤ) < rw.2

instance (t : Nat) (rws : List (ℤ × ℤ)) : Decidable (memZ t rws) := by
  unfold memZ; infer_instance

/-- Pointwise description of the successive window fills: every fill uses
the same value `v`, so the result holds `v` inside any window and the
original value elsewhere. -/
theorem fill_windows_char (du : Nat → ℚ) (v : ℚ) :
    ∀ rws : List (ℤ × ℤ), (∀ rw ∈ rws, rw.1 ≤ rw.2) →
      ∃ f, fill_windows du rws v = .ok f ∧
        ∀ t, f t = if memZ t rws then v else du t := by
  intro rws
  induction rws generalizing du with
  | nil =>
    intro _
    refine ⟨du, rfl, ?_⟩
    intro t
    rw [if_neg]
    rintro ⟨rw, hrw, _⟩
    exact List.not_mem_nil rw hrw
  | cons w rest ih =>
    intro hwf
    have hw := hwf w (List.mem_cons_self _ _)
    have hok : fill_slice du w v =
        .ok (fun t => if w.1 ≤ (t : ℤ) ∧ (t : ℤ) < w.2 then v else du t) := by
      unfold fill_slice
      rw [if_neg (by omega)]
    obtain ⟨f, hf, hchar⟩ := ih
      (fun t => if w.1 ≤ (t : ℤ) ∧ (t : ℤ) < w.2 then v else du t)
      (fun rw hrw => hwf rw (List.mem_cons_of_mem _ hrw))
    refine ⟨f, ?_, ?_⟩
    · rw [fill_windows, hok]
      exact hf
    · intro t
      rw [hchar t]
      by_cases hmem : memZ t rest
      · rw [if_pos hmem, if_pos]
        rcases hmem with ⟨rw, hrw, hin⟩
        exact ⟨rw, List.mem_cons_of_mem _ hrw, hin⟩
      · rw [if_neg hmem]
        by_cases hh : w.1 ≤ (t : ℤ) ∧ (t : ℤ) < w.2
        · rw [if_pos hh, if_pos ⟨w, List.mem_cons_self _ _, hh⟩]
        · rw [if_neg hh, if_neg]
          rintro ⟨rw, hrw, hin⟩
          rcases List.mem_cons.mp hrw with rfl | hrw
          · exact hh hin
          · exact hmem ⟨rw, hrw, hin⟩

/-- The `daily_use` mask seeded by `Appliance.windows` (core.py lines
861-864): zeros, then each configured window filled with the sentinel
0.001. -/
def windows_daily_use (w1 w2 w3 : Spot) : Except RampError (Nat → ℚ) :=
  fill_windows (fun _ => 0)
    [((w1.fst : ℤ), (w1.snd : ℤ)), ((w2.fst : ℤ), (w2.snd : ℤ)),
      ((w3.fst : ℤ), (w3.snd : ℤ))] (1/1000)

/-- `np.mean` of a 1-D array. -/
def np_mean (l : List ℚ) : ℚ := l.sum / (l.length : ℚ)

/-- `Appliance.maximum_profile` (core.py lines 974-984):
`self.daily_use * np.mean(self.power) * self.number`, where `daily_use` is
the window mask left by `windows`. -/
def appliance_maximum_profile (a : Appliance) : Except RampError (Nat → ℚ) :=
  (windows_daily_use a.window_1 a.window_2 a.window_3).map
    (fun du => fun t => du t * np_mean a.power * (a.number : ℚ))

/-- A user category: name-free projection of `User.__init__`
(core.py lines 253-270). -/
structure User where
  user_preference : Nat
  num_users : Nat
  apps : List Appliance

/-- Pointwise sum of a list of `Except`-valued profiles, first error wins
(the Python loop raises at the first failing appliance). -/
def except_sum (l : List (Except RampError (Nat → ℚ))) :
    Except RampError (Nat → ℚ) :=
  l.foldr
    (fun e acc =>
      match e, acc with
      | .ok f, .ok g => .ok (fun t => f t + g t)
      | .error e, _ => .error e
      | .ok _, .error e => .error e)
    (.ok (fun _ => 0))

/-- `User.maximum_profile` (core.py lines 315-328): the summed appliance
maxima, multiplied by `num_users`. -/
def user_maximum_profile (u : User) : Except RampError (Nat → ℚ) :=
  (except_sum (u.apps.map appliance_maximum_profile)).map
    (fun f => fun t => f t * (u.num_users : ℚ))

/-- The community theoretical maximum summed in `calc_peak_time_range`
(stochastic_process.py lines 40-43). -/
def tot_max_profile (users : List User) : Except RampError (Nat → ℚ) :=
  except_sum (users.map user_maximum_profile)

/-- `np.amax` over the 1440 minutes of a daily profile. -/
def np_amax (f : Nat → ℚ) : ℚ := ((List.range 1440).map f).foldr max (f 0)

/-- `np.argwhere(profile == amax)` flattened to the ascending list of
argmax minutes. -/
def peak_window (f : Nat → ℚ) : List Nat :=
  (List.range 1440).filter (fun t => decide (f t = np_amax f))

/-- `np.arange(a, b)` over Python ints. -/
def arangeZ (a b : ℤ) : List ℤ :=
  (List.range (b - a).toNat).map (fun i => a + (i : ℤ))

/--
`calc_peak_time_range` (stochastic_process.py lines 13-53).  `normalD mu
sigma` models `random.normalvariate(mu, sigma)` and `gaussD mu sigma`
models `random.gauss(mu, sigma)`.  When the argmax set has exactly one
element, `np.squeeze` collapses it to a 0-d array and the subscript
`peak_window[-1]` raises `IndexError` (`indexError0d`); otherwise the
returned range is `np.arange(peak_time - rand_peak_enlarge, peak_time +
rand_peak_enlarge)`.
-/
def calc_peak_time_range (users : List User) (peak_enlarge : ℚ)
    (normalD gaussD : ℚ → ℚ → ℚ) : Except RampError (List ℤ) :=
  match tot_max_profile users with
  | .error e => .error e
  | .ok f =>
    let pw := peak_window f
    if pw.length = 1 then .error .indexError0d
    else
      let mu := pyRound (((pw.foldr (· + ·) 0 : Nat) : ℚ) / (pw.length : ℚ))
      let sigma := 1/3 * (((pw.getLast?.getD 0 : Nat) : ℚ) - ((pw.headI : Nat) : ℚ))
      let peak_time := pyRound (normalD (mu : ℚ) sigma)
      let rand_peak_enlarge :=
        pyRound |((peak_time : ℚ)) - gaussD (peak_time : ℚ) (peak_enlarge * (peak_time : ℚ))|
      .ok (arangeZ (peak_time - rand_peak_enlarge) (peak_time + rand_peak_enlarge))

/--
The accumulation loop of `User.generate_single_load_profile` (core.py
lines 495-503): `single_load += App.daily_use` for each appliance in
order, with `power=App.power[prof_i]`; `Os i` is the random state consumed
by the `i`-th appliance.
-/
def sum_app_loads (user_preference prof_i : Nat) (peakF peakL : ℤ)
    (day_type : DayTypeArg) (sp mp opf : ℚ) :
    List Appliance → (Nat → Oracle) → Except RampError (Nat → ℚ)
  | [], _ => .ok (fun _ => 0)
  | a :: rest, Os =>
    match generate_load_profile a user_preference peakF peakL day_type
        (a.power.getD prof_i 0) sp mp opf (Os 0) with
    | .error e => .error e
    | .ok r =>
      match sum_app_loads user_preference prof_i peakF peakL day_type sp mp opf
          rest (fun i => Os (i + 1)) with
      | .error e => .error e
      | .ok g => .ok (fun t => r.1 t + g t)

/-- `User.generate_single_load_profile` (core.py lines 472-503), including
the day-index guard `if prof_i not in range(365)` (lines 492-493). -/
def generate_single_load_profile (u : User) (prof_i : Nat) (peakF peakL : ℤ)
    (day_type : DayTypeArg) (sp mp opf : ℚ) (Os : Nat → Oracle) :
    Except RampError (Nat → ℚ) :=
  if prof_i < 365 then
    sum_app_loads u.user_preference prof_i peakF peakL day_type sp mp opf
      u.apps Os
  else .error .invalidDayIndex

/-- The member loop of `User.generate_aggregated_load_profile`
(core.py lines 533-537): one single-load profile per member, summed.
`Os2 c i` is the random state of member `c`, appliance `i`. -/
def sum_member_loads (u : User) (prof_i : Nat) (peakF peakL : ℤ)
    (day_type : DayTypeArg) (sp mp opf : ℚ) :
    Nat → (Nat → Nat → Oracle) → Except RampError (Nat → ℚ)
  | 0, _ => .ok (fun _ => 0)
  | n + 1, Os2 =>
    match generate_single_load_profile u prof_i peakF peakL day_type sp mp opf
        (Os2 0) with
    | .error e => .error e
    | .ok f =>
      match sum_member_loads u prof_i peakF peakL day_type sp mp opf n
          (fun c => Os2 (c + 1)) with
      | .error e => .error e
      | .ok g => .ok (fun t => f t + g t)

/-- `User.generate_aggregated_load_profile` (core.py lines 505-538),
including the day-index guard (lines 529-530). -/
def generate_aggregated_load_profile (u : User) (prof_i : Nat)
    (peakF peakL : ℤ) (day_type : DayTypeArg) (sp mp opf : ℚ)
    (Os2 : Nat → Nat → Oracle) : Except RampError (Nat → ℚ) :=
  if prof_i < 365 then
    sum_member_loads u prof_i peakF peakL day_type sp mp opf u.num_users Os2
  else .error .invalidDayIndex

/--
The copy loop of one day of
`UseCase.generate_daily_load_profiles_parallel` (core.py lines 89-124):
the task list enumerates `for app in user.App_list: for _ in
range(user.num_users)` and each task calls
`app.generate_load_profile(day_id, peak_time_range, day_type, power =
app.power[day_id])` with `day_type = day_types[day_id]` (line 94) and no
day-index guard; the grouped results for one day are summed.  `Os2 c i`
is the random state of copy `c` of appliance `i`, matching the sequential
indexing so that the two modes can be compared draw-for-draw.
-/
def par_copies (u : User) (day_id : Nat) (day_type_value : Nat)
    (peakF peakL : ℤ) (sp mp opf : ℚ) (a : Appliance) (appIdx : Nat)
    (Os2 : Nat → Nat → Oracle) : Nat → Except RampError (Nat → ℚ)
  | 0 => .ok (fun _ => 0)
  | c + 1 =>
    match generate_load_profile a u.user_preference peakF peakL
        (DayTypeArg.scalar day_type_value) (a.power.getD day_id 0)
        sp mp opf (Os2 (u.num_users - (c + 1)) appIdx) with
    | .error e => .error e
    | .ok r =>
      match par_copies u day_id day_type_value peakF peakL sp mp opf a
          appIdx Os2 c with
      | .error e => .error e
      | .ok g => .ok (fun t => r.1 t + g t)

/-- The appliance loop of the parallel task list: `for app in
user.App_list`, each appliance contributing `num_users` copies. -/
def par_apps (u : User) (day_id : Nat) (day_type_value : Nat)
    (peakF peakL : ℤ) (sp mp opf : ℚ) :
    List Appliance → Nat → (Nat → Nat → Oracle) →
      Except RampError (Nat → ℚ)
  | [], _, _ => .ok (fun _ => 0)
  | a :: rest, appIdx, Os2 =>
    match par_copies u day_id day_type_value peakF peakL sp mp opf a appIdx
        Os2 u.num_users with
    | .error e => .error e
    | .ok f =>
      match par_apps u day_id day_type_value peakF peakL sp mp opf rest
          (appIdx + 1) Os2 with
      | .error e => .error e
      | .ok g => .ok (fun t => f t + g t)

/-- The per-user share of one day of the parallel driver: the whole task
list for this user and day, summed as the dictionary grouping does. -/
def par_user_day_load (u : User) (day_id : Nat) (day_type_value : Nat)
    (peakF peakL : ℤ) (sp mp opf : ℚ) (Os2 : Nat → Nat → Oracle) :
    Except RampError (Nat → ℚ) :=
  par_apps u day_id day_type_value peakF peakL sp mp opf u.apps 0 Os2

/--
The `power` argument of `Appliance.__init__` (core.py lines 634-650), by
the `isinstance` dispatch of the source: a `pd.DataFrame` (carried here as
its column count and first column, so its row count is the column's
length), a JSON string already parsed into its table of rows, a scalar
`float`/`int`, or any other object (e.g. a plain list or array).
-/
inductive PowerInput where
  | frame (cols : Nat) (col0 : List ℚ)
  | jsonStr (table : List (List ℚ))
  | scalar (x : ℚ)
  | listLike (l : List ℚ)
deriving Repr

/--
The `power` normalization of `Appliance.__init__` (core.py lines 634-650):
a DataFrame is accepted only with shape `(365, 1)` and stored as its first
column; a string is parsed with `pd.read_json` and its first column
stored; a scalar is broadcast with `power * np.ones(366)`; anything else
raises `ValueError("wrong data type for power.")`.
-/
def normalize_power : PowerInput → Except RampError (List ℚ)
  | .frame cols col0 =>
    if col0.length = 365 ∧ cols = 1 then .ok col0
    else .error .wrongPowerArraySize
  | .jsonStr table => .ok (table.map (fun row => row.getD 0 0))
  | .scalar x => .ok (List.replicate 366 x)
  | .listLike _ => .error .wrongPowerDataType

/-- A fixed conforming random state, used to instantiate witnesses: every
uniform draw returns its lower bound, every `randint(lo, hi)` returns
`lo`, every index draw returns 0. -/
def O0 : Oracle where
  occ := 0
  pref := fun _ => 1
  winDraw := fun _ lo _ => lo
  varU := fun a _ => a
  timeU := fun a b => min a b
  cycles := fun _ => []
  kDraw := fun _ _ => 0
  durU := fun _ a _ => a
  gaussD := fun _ => 0
  coincU := fun _ => 0
  thermU := fun _ a _ => a

/--
Claim C7: for every appliance with `number ≥ 1` and `op_factor ≤ number`,
`calc_coincident_switch_on` returns `number` when `fixed == 'yes'`
regardless of peak position, and otherwise an integer in `[1, number]` in
both the inside-peak and off-peak branches; in particular for `number = 1`
both branches return 1.  `g` is the Gaussian draw (unbounded), `p` the
`random.uniform(0, (number - op_factor)/number)` draw with its range
guarantees as hypotheses.
-/
theorem claim_C7_coincidence (number : Nat) (fixed inside : Bool)
    (sp mp opf : ℚ) (g p : ℚ)
    (hn : 1 ≤ number) (hp0 : 0 ≤ p) :
    (fixed = true →
      calc_coincident_switch_on number fixed inside sp mp opf g p = number) ∧
    (1 ≤ calc_coincident_switch_on number fixed inside sp mp opf g p ∧
      calc_coincident_switch_on number fixed inside sp mp opf g p ≤ number) ∧
    (number = 1 →
      calc_coincident_switch_on number fixed inside sp mp opf g p = 1) := by
  have hnz : (1 : ℤ) ≤ (number : ℤ) := by exact_mod_cast hn
  cases fixed with
  | true =>
    have hb : calc_coincident_switch_on number true inside sp mp opf g p =
        number := by
      cases inside <;> simp [calc_coincident_switch_on]
    refine ⟨fun _ => hb, ⟨?_, ?_⟩, fun h1 => ?_⟩
    · rw [hb]; exact hnz
    · rw [hb]
    · rw [hb, h1]; norm_num
  | false =>
    cases inside with
    | true =>
      have hb : calc_coincident_switch_on number false true sp mp opf g p =
          min (number : ℤ) (max 1 ⌈g⌉) := by
        simp [calc_coincident_switch_on]
      have h2 : (1 : ℤ) ≤ max 1 ⌈g⌉ := le_max_left _ _
      refine ⟨fun h => Bool.noConfusion h, ⟨?_, ?_⟩, fun h1 => ?_⟩
      · rw [hb]; exact le_min hnz h2
      · rw [hb]; exact min_le_left _ _
      · rw [hb, h1]
        norm_num
    | false =>
      refine ⟨fun h => Bool.noConfusion h, ⟨?_, ?_⟩, fun h1 => ?_⟩
      · rw [calc_coincident_switch_on, if_neg (by simp), if_pos (by simp)]
        cases hm : ((List.range number).filter
            (fun (i : Nat) => decide ((i : ℚ) / (number : ℚ) ≤ p))).max? with
        | none => simp
        | some m => simp only []; omega
      · rw [calc_coincident_switch_on, if_neg (by simp), if_pos (by simp)]
        cases hm : ((List.range number).filter
            (fun (i : Nat) => decide ((i : ℚ) / (number : ℚ) ≤ p))).max? with
        | none => simp only []; exact hnz
        | some m =>
          simp only []
          have hmem := List.max?_mem (fun a b : Nat => max_choice a b) hm
          have hlt : m < number := List.mem_range.mp (List.mem_of_mem_filter hmem)
          omega
      · subst h1
        rw [calc_coincident_switch_on, if_neg (by simp), if_pos (by simp)]
        have hdec : decide (((0 : Nat) : ℚ) / ((1 : Nat) : ℚ) ≤ p) = true := by
          rw [decide_eq_true_eq]
          push_cast
          simpa using hp0
        have hfil : (List.range 1).filter
            (fun (i : Nat) => decide ((i : ℚ) / ((1 : Nat) : ℚ) ≤ p)) = [0] := by
          have hr1 : List.range 1 = [0] := rfl
          simp only [hr1, List.filter, hdec]
        rw [hfil]
        rfl

/--
Claim C2 (amended): after the `isinstance` dispatch of
`Appliance.__init__`, a scalar is broadcast to a length-366 series; a
DataFrame is accepted only with shape `(365, 1)` and its stored series has
length 365, not 366; a JSON string stores the parsed table's first column;
and a plain numeric sequence (or any other type) is always rejected.
-/
theorem claim_C2_power_normalization (p : PowerInput) (l : List ℚ)
    (h : normalize_power p = .ok l) :
    (match p with
      | .scalar _ => l.length = 366
      | .frame cols col0 => l.length = 365 ∧ cols = 1 ∧ l = col0
      | .jsonStr table => l = table.map (fun row => row.getD 0 0)
      | .listLike _ => False) := by
  cases p with
  | frame cols col0 =>
    rw [normalize_power] at h
    by_cases hc : col0.length = 365 ∧ cols = 1
    · rw [if_pos hc] at h
      injection h with h
      subst h
      exact ⟨hc.1, hc.2, rfl⟩
    · rw [if_neg hc] at h
      cases h
  | jsonStr table =>
    rw [normalize_power] at h
    injection h with h
    subst h
    rfl
  | scalar x =>
    rw [normalize_power] at h
    injection h with h
    subst h
    exact List.length_replicate 366 x
  | listLike ls =>
    rw [normalize_power] at h
    cases h

theorem claim_C2_power_normalization_witness :
    (List.replicate 366 (5 : ℚ)).length = 366 :=
  claim_C2_power_normalization (.scalar 5) (List.replicate 366 5) rfl

/--
Counterexample to claim C2 as stated: a plain length-366 numeric sequence
is rejected (`ValueError: wrong data type for power.`), and the accepted
DataFrame route stores a series of length 365, not 366.
-/
theorem claim_C2_counterexample :
    normalize_power (.listLike (List.replicate 366 1)) =
      .error .wrongPowerDataType ∧
    normalize_power (.frame 1 (List.replicate 365 1)) =
      .ok (List.replicate 365 (1 : ℚ)) ∧
    (List.replicate 365 (1 : ℚ)).length ≠ 366 := by
  refine ⟨rfl, ?_, ?_⟩
  · rw [normalize_power, if_pos ⟨List.length_replicate 365 1, rfl⟩]
  · rw [List.length_replicate]; omega

theorem claim_C7_coincidence_witness :
    (false = true → calc_coincident_switch_on 2 false false 0 0 0 0 0 = 2) ∧
    (1 ≤ calc_coincident_switch_on 2 false false 0 0 0 0 0 ∧
      calc_coincident_switch_on 2 false false 0 0 0 0 0 ≤ 2) ∧
    (2 = 1 → calc_coincident_switch_on 2 false false 0 0 0 0 0 = 1) := by
  have h := claim_C7_coincidence 2 false false 0 0 0 0 0 (by norm_num) (by norm_num)
  simpa using h

/--
Claim C5: `rand_switch_on_window` returns `None` exactly when no free spot
has length at least `func_cycle`; otherwise it returns a contiguous
interval `[switch_on, switch_on + L)` contained in a single free spot,
with `switch_on` the `kf`-drawn element of the candidate list concatenated
from `[s.start, s.stop - func_cycle + 1)` over the free spots, and
`func_cycle ≤ L ≤ min rand_time (s.stop - switch_on)`.
-/
theorem claim_C5_rand_switch_on_window (fc rt : Nat) (spots : List Spot)
    (kf : Nat → Nat) (uf : ℚ → ℚ → ℚ)
    (hfc : 0 < fc) (hrt : fc ≤ rt)
    (hk : ∀ n, 0 < n → kf n < n)
    (hu : ∀ a b : ℚ, a ≤ b → a ≤ uf a b ∧ uf a b ≤ b) :
    (rand_switch_on_window fc rt spots kf uf = none ↔
      ∀ s ∈ spots, s.snd - s.fst < fc) ∧
    ∀ so L, rand_switch_on_window fc rt spots kf uf = some (so, L) →
      so = (indexes_choice fc spots).getD (kf (indexes_choice fc spots).length) 0 ∧
      so ∈ indexes_choice fc spots ∧
      fc ≤ L ∧
      ∃ s ∈ spots, s.fst ≤ so ∧ so + L ≤ s.snd ∧ L ≤ min rt (s.snd - so) :=
  rand_switch_on_window_behavior fc rt spots kf uf hfc hrt hk hu

theorem claim_C5_rand_switch_on_window_witness :
    rand_switch_on_window 2 2 [⟨0, 1⟩] (fun _ => 0) (fun a _ => a) = none :=
  (claim_C5_rand_switch_on_window 2 2 [⟨0, 1⟩] (fun _ => 0) (fun a _ => a)
    (by norm_num) (le_refl 2) (fun n hn => hn)
    (fun a b h => ⟨le_refl a, h⟩)).1.mpr (by decide)

theorem rand_total_time_of_use_error (ft fc : Nat) (tfrv : ℚ)
    (rw1 rw2 rw3 : ℤ × ℤ) (varU timeU : ℚ → ℚ → ℚ) (e : RampError)
    (h : rand_total_time_of_use ft fc tfrv rw1 rw2 rw3 varU timeU = .error e) :
    e = .funcCycleTooLarge := by
  simp only [rand_total_time_of_use] at h
  repeat' split at h
  all_goals
    first
      | (injection h with h; exact h.symm)
      | cases h

theorem fill_windows_error (du : Nat → ℚ) (v : ℚ) :
    ∀ (rws : List (ℤ × ℤ)) (e : RampError),
      fill_windows du rws v = .error e → e = .negativeDimensions := by
  intro rws
  induction rws generalizing du with
  | nil => intro e h; cases h
  | cons w rest ih =>
    intro e h
    rw [fill_windows] at h
    cases hs : fill_slice du w v with
    | error e1 =>
      rw [hs] at h
      simp only [] at h
      injection h with h
      subst h
      unfold fill_slice at hs
      split at hs
      · injection hs with hs
        exact hs.symm
      · cases hs
    | ok du1 =>
      rw [hs] at h
      simp only [] at h
      exact ih du1 e h

theorem generate_load_profile_error (app : Appliance) (up : Nat)
    (pF pL : ℤ) (dt : DayTypeArg) (power sp mp opf : ℚ) (O : Oracle)
    (e : RampError)
    (h : generate_load_profile app up pF pL dt power sp mp opf O = .error e) :
    e = .funcCycleTooLarge ∨ e = .negativeDimensions := by
  simp only [generate_load_profile] at h
  repeat' split at h
  any_goals cases h
  all_goals
    rename_i heq
    first
      | exact Or.inl (rand_total_time_of_use_error _ _ _ _ _ _ _ _ _ heq)
      | exact Or.inr (fill_windows_error _ _ _ _ heq)

theorem sum_app_loads_error (up d : Nat) (pF pL : ℤ) (dt : DayTypeArg)
    (sp mp opf : ℚ) :
    ∀ (apps : List Appliance) (Os : Nat → Oracle) (e : RampError),
      sum_app_loads up d pF pL dt sp mp opf apps Os = .error e →
      e = .funcCycleTooLarge ∨ e = .negativeDimensions := by
  intro apps
  induction apps with
  | nil => intro Os e h; cases h
  | cons a rest ih =>
    intro Os e h
    rw [sum_app_loads] at h
    cases hg : generate_load_profile a up pF pL dt (a.power.getD d 0)
        sp mp opf (Os 0) with
    | error e1 =>
      rw [hg] at h
      simp only [] at h
      injection h with h
      subst h
      exact generate_load_profile_error _ _ _ _ _ _ _ _ _ _ _ hg
    | ok r =>
      rw [hg] at h
      simp only [] at h
      cases hrec : sum_app_loads up d pF pL dt sp mp opf rest
          (fun i => Os (i + 1)) with
      | error e1 =>
        rw [hrec] at h
        simp only [] at h
        injection h with h
        subst h
        exact ih _ _ hrec
      | ok g =>
        rw [hrec] at h
        simp only [] at h
        cases h

theorem sum_member_loads_error (u : User) (d : Nat) (pF pL : ℤ)
    (dt : DayTypeArg) (sp mp opf : ℚ) (hd : d < 365) :
    ∀ (n : Nat) (Os2 : Nat → Nat → Oracle) (e : RampError),
      sum_member_loads u d pF pL dt sp mp opf n Os2 = .error e →
      e = .funcCycleTooLarge ∨ e = .negativeDimensions := by
  intro n
  induction n with
  | zero => intro Os2 e h; cases h
  | succ n ih =>
    intro Os2 e h
    rw [sum_member_loads] at h
    cases hg : generate_single_load_profile u d pF pL dt sp mp opf (Os2 0) with
    | error e1 =>
      rw [hg] at h
      simp only [] at h
      injection h with h
      subst h
      rw [generate_single_load_profile, if_pos hd] at hg
      exact sum_app_loads_error _ _ _ _ _ _ _ _ _ _ _ hg
    | ok f =>
      rw [hg] at h
      simp only [] at h
      cases hrec : sum_member_loads u d pF pL dt sp mp opf n
          (fun c => Os2 (c + 1)) with
      | error e1 =>
        rw [hrec] at h
        simp only [] at h
        injection h with h
        subst h
        exact ih _ _ hrec
      | ok g =>
        rw [hrec] at h
        simp only [] at h
        cases h

/--
Claim C8 (amended): both `generate_single_load_profile` and
`generate_aggregated_load_profile` raise the invalid-day-index error
exactly for day indexes outside `[0, 365)`; in particular every
`d ∈ [0, 364]` passes the day check (`prof_i in range(365)`), with
`power` indexed as `power[d]`, while `d = 365` is rejected.
-/
theorem claim_C8_day_index (u : User) (peakF peakL : ℤ) (dt : DayTypeArg)
    (sp mp opf : ℚ) (Os : Nat → Oracle) (Os2 : Nat → Nat → Oracle) (d : Nat) :
    (generate_single_load_profile u d peakF peakL dt sp mp opf Os =
        .error .invalidDayIndex ↔ 365 ≤ d) ∧
    (generate_aggregated_load_profile u d peakF peakL dt sp mp opf Os2 =
        .error .invalidDayIndex ↔ 365 ≤ d) := by
  constructor
  · constructor
    · intro h
      by_contra hd
      rw [generate_single_load_profile, if_pos (by omega)] at h
      rcases sum_app_loads_error _ _ _ _ _ _ _ _ _ _ _ h with h1 | h1 <;> cases h1
    · intro hd
      rw [generate_single_load_profile, if_neg (by omega)]
  · constructor
    · intro h
      by_contra hd
      rw [generate_aggregated_load_profile, if_pos (by omega)] at h
      rcases sum_member_loads_error u d peakF peakL dt sp mp opf (by omega)
        _ _ _ h with h1 | h1 <;> cases h1
    · intro hd
      rw [generate_aggregated_load_profile, if_neg (by omega)]

/--
Counterexample to claim C8 as stated: day index 365 (which the claim's
range `[0, 365]` includes) is rejected by `generate_single_load_profile`
with the invalid-day error.
-/
theorem claim_C8_counterexample :
    generate_single_load_profile ⟨0, 1, []⟩ 365 0 0 (.scalar 0) 0 0 0
      (fun _ => O0) = .error .invalidDayIndex := by
  rw [generate_single_load_profile, if_neg (by omega)]

/--
Counterexample to claim C4 as stated.  First conjunct: consuming a whole
spot up to its end leaves the zero-length slice `slice(5, 5)` in
`free_spots` — zero-length intervals are kept, not dropped.  Second
conjunct: with the adjacent spots `[0,5)` and `[5,9)`, the single-minute
event `[5,5]` is matched against the first spot (whose `stop` equals 5),
so nothing is removed and the covered union does not shrink by the chosen
interval.
-/
theorem claim_C4_counterexample :
    update_available_time_for_switch_on_events [⟨0, 5⟩] 0 4 = [⟨5, 5⟩] ∧
    update_available_time_for_switch_on_events [⟨0, 5⟩, ⟨5, 9⟩] 5 5 =
      [⟨0, 5⟩, ⟨5, 9⟩] := by
  decide

/--
Claim C4 (amended): throughout the switch-on loop, if the jittered
windows seeding `free_spots` are strictly separated and well formed, the
list remains strictly separated (hence sorted and disjoint) and well
formed, every recorded event has positive length, and the covered union
equals the initial union minus the chosen switch-on intervals.  Removing
an interval inserts 0, 1 or 2 replacement slices in place, but a
zero-length replacement is retained (first counterexample conjunct), and
the union property needs the strict separation of the windows (second
counterexample conjunct).
-/
theorem claim_C4_free_spots (app : Appliance) (rand_time : Nat)
    (peakF peakL : ℤ) (power sp mp opf : ℚ) (O : Oracle)
    (hfc : 0 < app.func_cycle) (hrt : app.func_cycle ≤ rand_time)
    (hk : ∀ i n, 0 < n → O.kDraw i n < n)
    (hdu : ∀ i a b, a ≤ b → a ≤ O.durU i a b ∧ O.durU i a b ≤ b) :
    ∀ fuel iter tot du spots, sepSpots spots → validSpots spots →
      sepSpots (switch_on_loop app rand_time peakF peakL power sp mp opf O
        fuel iter tot du spots).2.1 ∧
      validSpots (switch_on_loop app rand_time peakF peakL power sp mp opf O
        fuel iter tot du spots).2.1 ∧
      (∀ p ∈ (switch_on_loop app rand_time peakF peakL power sp mp opf O
        fuel iter tot du spots).2.2, 0 < p.2) ∧
      (∀ t, memSpots t (switch_on_loop app rand_time peakF peakL power sp mp opf O
          fuel iter tot du spots).2.1 ↔
        (memSpots t spots ∧
          ∀ p ∈ (switch_on_loop app rand_time peakF peakL power sp mp opf O
            fuel iter tot du spots).2.2, ¬(p.1 ≤ t ∧ t < p.1 + p.2))) :=
  switch_on_loop_free_spots app rand_time peakF peakL power sp mp opf O
    hfc hrt hk hdu

/-- A minimal non-flat appliance used to instantiate witnesses. -/
def appW : Appliance :=
  { number := 1, power := [1], num_windows := 1, func_time := 10,
    time_fraction_random_variability := 0, func_cycle := 1, fixed := false,
    fixed_cycle := 0, occasional_use := 1, flat := false, thermal_p_var := 0,
    pref_index := 0, wd_we_type := 2, window_1 := ⟨0, 10⟩, window_2 := ⟨0, 0⟩,
    window_3 := ⟨0, 0⟩, random_var_1 := 0, random_var_2 := 0,
    random_var_3 := 0, cw11 := ⟨0, 0⟩, cw12 := ⟨0, 0⟩, cw21 := ⟨0, 0⟩,
    cw22 := ⟨0, 0⟩ }

theorem claim_C4_free_spots_witness :
    sepSpots (switch_on_loop appW 1 0 0 0 0 0 0 O0 1 0 0
      (fun _ => 0) [⟨0, 5⟩]).2.1 ∧
    validSpots (switch_on_loop appW 1 0 0 0 0 0 0 O0 1 0 0
      (fun _ => 0) [⟨0, 5⟩]).2.1 ∧
    (∀ p ∈ (switch_on_loop appW 1 0 0 0 0 0 0 O0 1 0 0
      (fun _ => 0) [⟨0, 5⟩]).2.2, 0 < p.2) ∧
    (∀ t, memSpots t (switch_on_loop appW 1 0 0 0 0 0 0 O0 1 0 0
        (fun _ => 0) [⟨0, 5⟩]).2.1 ↔
      (memSpots t [⟨0, 5⟩] ∧
        ∀ p ∈ (switch_on_loop appW 1 0 0 0 0 0 0 O0 1 0 0
          (fun _ => 0) [⟨0, 5⟩]).2.2, ¬(p.1 ≤ t ∧ t < p.1 + p.2))) :=
  claim_C4_free_spots appW 1 0 0 0 0 0 0 O0 (by decide) (by decide)
    (fun _ _ hn => hn) (fun _ a _ h => ⟨le_refl a, h⟩)
    1 0 0 (fun _ => 0) [⟨0, 5⟩] (by decide) (by decide)

theorem np_mean_replicate (n : Nat) (x : ℚ) (hn : n ≠ 0) :
    np_mean (List.replicate n x) = x := by
  have h0 : (n : ℚ) ≠ 0 := by exact_mod_cast hn
  unfold np_mean
  rw [List.sum_replicate, List.length_replicate, nsmul_eq_mul]
  rw [mul_comm, mul_div_assoc, div_self h0, mul_one]

/--
Claim C1 (amended): after `windows()` and before any daily profile is
generated, `Appliance.maximum_profile` equals `0.001 · mean(power) ·
number` — not `mean(power) · number` — at every minute contained in any
configured window, and zero elsewhere (the `daily_use` mask holds the
sentinel 0.001, and `maximum_profile` multiplies that mask by
`np.mean(power) * number`).
-/
theorem claim_C1_maximum_profile (a : Appliance)
    (hw : ∀ w ∈ [a.window_1, a.window_2, a.window_3], w.fst ≤ w.snd) :
    ∃ f, appliance_maximum_profile a = .ok f ∧
      ∀ t, f t =
        if memSpots t [a.window_1, a.window_2, a.window_3] then
          (1/1000) * np_mean a.power * (a.number : ℚ)
        else 0 := by
  have hwf : ∀ rw ∈ [((a.window_1.fst : ℤ), (a.window_1.snd : ℤ)),
      ((a.window_2.fst : ℤ), (a.window_2.snd : ℤ)),
      ((a.window_3.fst : ℤ), (a.window_3.snd : ℤ))], rw.1 ≤ rw.2 := by
    intro rw hrw
    rcases List.mem_cons.mp hrw with rfl | hrw
    · show (a.window_1.fst : ℤ) ≤ (a.window_1.snd : ℤ)
      exact_mod_cast hw a.window_1 (by simp)
    rcases List.mem_cons.mp hrw with rfl | hrw
    · show (a.window_2.fst : ℤ) ≤ (a.window_2.snd : ℤ)
      exact_mod_cast hw a.window_2 (by simp)
    rcases List.mem_cons.mp hrw with rfl | hrw
    · show (a.window_3.fst : ℤ) ≤ (a.window_3.snd : ℤ)
      exact_mod_cast hw a.window_3 (by simp)
    · exact absurd hrw (List.not_mem_nil rw)
  obtain ⟨du, hdu, hchar⟩ := fill_windows_char (fun _ => 0) (1/1000) _ hwf
  refine ⟨fun t => du t * np_mean a.power * (a.number : ℚ), ?_, ?_⟩
  · rw [appliance_maximum_profile, windows_daily_use, hdu]
    rfl
  · intro t
    show du t * np_mean a.power * (a.number : ℚ) = _
    rw [hchar t]
    have hmem : memZ t [((a.window_1.fst : ℤ), (a.window_1.snd : ℤ)),
        ((a.window_2.fst : ℤ), (a.window_2.snd : ℤ)),
        ((a.window_3.fst : ℤ), (a.window_3.snd : ℤ))] ↔
        memSpots t [a.window_1, a.window_2, a.window_3] := by
      unfold memZ memSpots inSpot
      constructor
      · rintro ⟨rw, hrw, h1, h2⟩
        rcases List.mem_cons.mp hrw with rfl | hrw
        · exact ⟨a.window_1, by simp, by omega, by omega⟩
        rcases List.mem_cons.mp hrw with rfl | hrw
        · exact ⟨a.window_2, by simp, by omega, by omega⟩
        rcases List.mem_cons.mp hrw with rfl | hrw
        · exact ⟨a.window_3, by simp, by omega, by omega⟩
        · exact absurd hrw (List.not_mem_nil rw)
      · rintro ⟨w, hwmem, h1, h2⟩
        rcases List.mem_cons.mp hwmem with rfl | hwmem
        · exact ⟨((a.window_1.fst : ℤ), (a.window_1.snd : ℤ)), by simp, by omega, by omega⟩
        rcases List.mem_cons.mp hwmem with rfl | hwmem
        · refine ⟨((a.window_2.fst : ℤ), (a.window_2.snd : ℤ)), by simp, by omega, by omega⟩
        rcases List.mem_cons.mp hwmem with rfl | hwmem
        · refine ⟨((a.window_3.fst : ℤ), (a.window_3.snd : ℤ)), by simp, by omega, by omega⟩
        · exact absurd hwmem (List.not_mem_nil w)
    rw [if_congr hmem rfl rfl]
    by_cases hm : memSpots t [a.window_1, a.window_2, a.window_3]
    · rw [if_pos hm, if_pos hm]
    · rw [if_neg hm, if_neg hm, zero_mul, zero_mul]

/-- The appliance of the C1 counterexample: one single-minute window,
constant power 1000, one copy. -/
def appC1 : Appliance :=
  { appW with window_1 := ⟨0, 1⟩, power := List.replicate 366 1000, func_time := 0 }

theorem claim_C1_counterexample :
    ∃ f, appliance_maximum_profile appC1 = .ok f ∧
      f 0 = 1 ∧ np_mean appC1.power * (appC1.number : ℚ) = 1000 ∧
      (1 : ℚ) ≠ 1000 := by
  have hwf : ∀ rw ∈ [((appC1.window_1.fst : ℤ), (appC1.window_1.snd : ℤ)),
      ((appC1.window_2.fst : ℤ), (appC1.window_2.snd : ℤ)),
      ((appC1.window_3.fst : ℤ), (appC1.window_3.snd : ℤ))], rw.1 ≤ rw.2 := by
    decide
  obtain ⟨du, hdu, hchar⟩ := fill_windows_char (fun _ => 0) (1/1000) _ hwf
  have hmean : np_mean appC1.power = 1000 := by
    have h : appC1.power = List.replicate 366 1000 := rfl
    rw [h, np_mean_replicate 366 1000 (by norm_num)]
  have hnum : (appC1.number : ℚ) = 1 := by norm_num [appC1, appW]
  refine ⟨fun t => du t * np_mean appC1.power * (appC1.number : ℚ),
    ?_, ?_, ?_, by norm_num⟩
  · rw [appliance_maximum_profile, windows_daily_use, hdu]
    rfl
  · show du 0 * np_mean appC1.power * (appC1.number : ℚ) = 1
    rw [hchar 0, if_pos (by decide), hmean, hnum]
    norm_num
  · rw [hmean, hnum, mul_one]

theorem claim_C1_maximum_profile_witness :
    ∃ f, appliance_maximum_profile appW = .ok f ∧
      ∀ t, f t =
        if memSpots t [appW.window_1, appW.window_2, appW.window_3] then
          (1/1000) * np_mean appW.power * (appW.number : ℚ)
        else 0 :=
  claim_C1_maximum_profile appW (by decide)

theorem foldr_max_eq (a : ℚ) :
    ∀ l : List ℚ, (∀ x ∈ l, x ≤ a) → l.foldr max a = a := by
  intro l
  induction l with
  | nil => intro _; rfl
  | cons x xs ih =>
    intro h
    rw [List.foldr_cons, ih (fun y hy => h y (List.mem_cons_of_mem _ hy))]
    exact max_eq_right (h x (List.mem_cons_self _ _))

theorem filter_range_eq_singleton_zero :
    (List.range 1440).filter (fun t => decide (t = 0)) = [0] := by
  have h1 : List.range 1440 = 0 :: List.map Nat.succ (List.range 1439) := by
    rw [show (1440 : Nat) = 1439 + 1 from rfl, List.range_succ_eq_map]
  rw [h1, List.filter_cons_of_pos (by simp), List.filter_map]
  have h2 : List.filter ((fun t => decide (t = 0)) ∘ Nat.succ)
      (List.range 1439) = [] := by
    rw [List.filter_eq_nil_iff]
    intro a _
    simp
  rw [h2]
  rfl

/-- The single-user community of the C3 failing input: one user with one
copy of `appC1`, whose theoretical maximum profile attains its maximum at
minute 0 only. -/
def userC3 : User := ⟨0, 1, [appC1]⟩

/--
Claim C3 evaluated at the failing input: when the community theoretical
maximum attains its maximum at a single minute, `np.squeeze` collapses the
argmax array to 0-d and `peak_window[-1]` raises `IndexError` instead of
returning a (possibly empty) range — `calc_peak_time_range` is not total.
-/
theorem claim_C3_single_argmax_crash :
    calc_peak_time_range [userC3] (3/20) (fun _ _ => 0) (fun _ _ => 0) =
      .error .indexError0d := by
  have hwf : ∀ rw ∈ [((appC1.window_1.fst : ℤ), (appC1.window_1.snd : ℤ)),
      ((appC1.window_2.fst : ℤ), (appC1.window_2.snd : ℤ)),
      ((appC1.window_3.fst : ℤ), (appC1.window_3.snd : ℤ))], rw.1 ≤ rw.2 := by
    decide
  obtain ⟨du, hdu, hchar⟩ := fill_windows_char (fun _ => 0) (1/1000) _ hwf
  have hmean : np_mean appC1.power = 1000 := by
    have h : appC1.power = List.replicate 366 1000 := rfl
    rw [h, np_mean_replicate 366 1000 (by norm_num)]
  have hnum : (appC1.number : ℚ) = 1 := by norm_num [appC1, appW]
  have happ : appliance_maximum_profile appC1 =
      .ok (fun t => du t * np_mean appC1.power * (appC1.number : ℚ)) := by
    rw [appliance_maximum_profile, windows_daily_use, hdu]
    rfl
  have huser : user_maximum_profile userC3 =
      .ok (fun t => (du t * np_mean appC1.power * (appC1.number : ℚ) + 0) *
        ((userC3.num_users : ℕ) : ℚ)) := by
    rw [user_maximum_profile]
    show (except_sum ([appC1].map appliance_maximum_profile)).map _ = _
    rw [List.map_singleton, except_sum, List.foldr_cons, List.foldr_nil, happ]
    rfl
  have htot : tot_max_profile [userC3] =
      .ok (fun t => (du t * np_mean appC1.power * (appC1.number : ℚ) + 0) *
        ((userC3.num_users : ℕ) : ℚ) + 0) := by
    rw [tot_max_profile, List.map_singleton, except_sum, List.foldr_cons,
      List.foldr_nil, huser]
  set F : Nat → ℚ := fun t =>
    (du t * np_mean appC1.power * (appC1.number : ℚ) + 0) *
      ((userC3.num_users : ℕ) : ℚ) + 0 with hF
  have hFt : ∀ t, F t = if t = 0 then 1 else 0 := by
    intro t
    rw [hF]
    simp only []
    rw [hchar t]
    have hmem : memZ t [((appC1.window_1.fst : ℤ), (appC1.window_1.snd : ℤ)),
        ((appC1.window_2.fst : ℤ), (appC1.window_2.snd : ℤ)),
        ((appC1.window_3.fst : ℤ), (appC1.window_3.snd : ℤ))] ↔ t = 0 := by
      have hp1 : ((appC1.window_1.fst : ℤ), (appC1.window_1.snd : ℤ)) =
          ((0 : ℤ), (1 : ℤ)) := rfl
      have hp2 : ((appC1.window_2.fst : ℤ), (appC1.window_2.snd : ℤ)) =
          ((0 : ℤ), (0 : ℤ)) := rfl
      have hp3 : ((appC1.window_3.fst : ℤ), (appC1.window_3.snd : ℤ)) =
          ((0 : ℤ), (0 : ℤ)) := rfl
      rw [hp1, hp2, hp3]
      unfold memZ
      simp only [List.mem_cons, List.not_mem_nil, or_false, List.mem_singleton]
      constructor
      · rintro ⟨rw, (rfl | rfl | rfl), h1, h2⟩ <;> omega
      · intro ht
        exact ⟨((0 : ℤ), (1 : ℤ)), Or.inl rfl, by omega, by omega⟩
    by_cases ht : t = 0
    · rw [if_pos (hmem.mpr ht), if_pos ht, hmean, hnum]
      show ((1 : ℚ)/1000 * 1000 * 1 + 0) * ((1 : ℕ) : ℚ) + 0 = 1
      norm_num
    · rw [if_neg (fun hc => ht (hmem.mp hc)), if_neg ht]
      show ((0 : ℚ) * np_mean appC1.power * (appC1.number : ℚ) + 0) *
        ((userC3.num_users : ℕ) : ℚ) + 0 = 0
      ring
  have hamax : np_amax F = 1 := by
    unfold np_amax
    have h0 : F 0 = 1 := by rw [hFt 0]; rfl
    rw [h0]
    apply foldr_max_eq
    intro x hx
    rcases List.mem_map.mp hx with ⟨t, _, rfl⟩
    rw [hFt t]
    by_cases ht : t = 0
    · rw [if_pos ht]
    · rw [if_neg ht]; norm_num
  have hpw : peak_window F = [0] := by
    unfold peak_window
    rw [List.filter_congr ?_, filter_range_eq_singleton_zero]
    intro t _
    rw [hamax]
    apply decide_eq_decide.mpr
    constructor
    · intro h1
      by_contra ht
      rw [hFt t, if_neg ht] at h1
      exact absurd h1 (by norm_num)
    · intro ht
      rw [hFt t, if_pos ht]
  rw [calc_peak_time_range, htot]
  simp only []
  rw [hpw]
  rfl

theorem O0_conformant : O0.Conformant := by
  refine ⟨⟨le_refl 0, by show (0 : ℚ) ≤ 1; norm_num⟩, ?_, ?_, ?_, ?_, ?_, ?_⟩
  · intro n hn; exact ⟨le_refl 1, hn⟩
  · intro i lo hi h; exact ⟨le_refl lo, h⟩
  · intro a b; exact ⟨min_le_left a b, le_max_left a b⟩
  · intro a b; exact ⟨le_refl (min a b), min_le_max⟩
  · intro i n hn; exact hn
  · intro i a b h; exact ⟨le_refl a, h⟩

/--
The flat branch of `generate_load_profile`: when the appliance is flat and
eligible and `rand_total_time_of_use` succeeds, the daily profile is the
fill of the jittered windows with `power * number` over zeros, with no
switch-on events.
-/
theorem generate_load_profile_flat (app : Appliance) (up : Nat)
    (pF pL : ℤ) (dt : DayTypeArg) (power sp mp opf : ℚ) (O : Oracle)
    (hflat : app.flat = true)
    (helig : ¬(app.occasional_use < O.occ ∨
      (app.pref_index ≠ 0 ∧
        (if up = 0 then 0 else O.pref up) ≠ app.pref_index) ∨
      wdWeMatches app.wd_we_type dt = false))
    (rt : Nat)
    (hrt : rand_total_time_of_use app.func_time app.func_cycle
      app.time_fraction_random_variability (rand_window_1 app O)
      (rand_window_2 app O) (rand_window_3 app O) O.varU O.timeU = .ok rt)
    (hwf : ∀ rw ∈ [rand_window_1 app O, rand_window_2 app O,
      rand_window_3 app O], rw.1 ≤ rw.2) :
    ∃ f, generate_load_profile app up pF pL dt power sp mp opf O =
        .ok (f, []) ∧
      ∀ t, f t = if memZ t [rand_window_1 app O, rand_window_2 app O,
        rand_window_3 app O] then power * (app.number : ℚ) else 0 := by
  obtain ⟨f, hf, hchar⟩ :=
    fill_windows_char (fun _ => 0) (power * (app.number : ℚ)) _ hwf
  refine ⟨f, ?_, hchar⟩
  simp only [generate_load_profile]
  rw [if_neg helig, hrt]
  simp only []
  rw [if_pos hflat, hf]

theorem pyInt_natCast (n : Nat) : pyInt ((n : ℚ)) = n := by
  unfold pyInt
  rw [if_pos (by positivity)]
  exact Int.floor_natCast n

theorem pyRound_natCast (n : Nat) : pyRound ((n : ℚ)) = n := by
  unfold pyRound
  rw [Int.floor_natCast]
  norm_num

/-- The appliance of scenario S1: two copies, power 100, single window
`[480, 600)`, `func_time` 120, flat. -/
def appS1 : Appliance :=
  { appW with number := 2, power := List.replicate 366 100, func_time := 120, window_1 := ⟨480, 600⟩, flat := true }

theorem winDraw_const (O : Oracle) (hO : O.Conformant) (i : Nat) (v : ℤ) :
    O.winDraw i v v = v :=
  le_antisymm (hO.2.2.1 i v v (le_refl v)).2 (hO.2.2.1 i v v (le_refl v)).1

theorem rand_window_1_appS1 (O : Oracle) (hO : O.Conformant) :
    rand_window_1 appS1 O = ((480 : ℤ), (600 : ℤ)) := by
  unfold rand_window_1
  have e1 : ((appS1.window_1.fst : ℤ) - (appS1.random_var_1 : ℤ)) = 480 := by decide
  have e2 : ((appS1.window_1.fst : ℤ) + (appS1.random_var_1 : ℤ)) = 480 := by decide
  have e3 : ((appS1.window_1.snd : ℤ) - (appS1.random_var_1 : ℤ)) = 600 := by decide
  have e4 : ((appS1.window_1.snd : ℤ) + (appS1.random_var_1 : ℤ)) = 600 := by decide
  rw [e1, e2, e3, e4, winDraw_const O hO 0 480, winDraw_const O hO 1 600]
  decide

theorem rand_window_2_appS1 (O : Oracle) (hO : O.Conformant) :
    rand_window_2 appS1 O = ((0 : ℤ), (0 : ℤ)) := by
  unfold rand_window_2
  have e1 : ((appS1.window_2.fst : ℤ) - (appS1.random_var_2 : ℤ)) = 0 := by decide
  have e2 : ((appS1.window_2.fst : ℤ) + (appS1.random_var_2 : ℤ)) = 0 := by decide
  have e3 : ((appS1.window_2.snd : ℤ) - (appS1.random_var_2 : ℤ)) = 0 := by decide
  have e4 : ((appS1.window_2.snd : ℤ) + (appS1.random_var_2 : ℤ)) = 0 := by decide
  rw [e1, e2, e3, e4, winDraw_const O hO 2 0, winDraw_const O hO 3 0]
  decide

theorem rand_window_3_appS1 (O : Oracle) (hO : O.Conformant) :
    rand_window_3 appS1 O = ((0 : ℤ), (0 : ℤ)) := by
  unfold rand_window_3
  have e1 : ((appS1.window_3.fst : ℤ) - (appS1.random_var_3 : ℤ)) = 0 := by decide
  have e2 : ((appS1.window_3.fst : ℤ) + (appS1.random_var_3 : ℤ)) = 0 := by decide
  have e3 : ((appS1.window_3.snd : ℤ) - (appS1.random_var_3 : ℤ)) = 0 := by decide
  have e4 : ((appS1.window_3.snd : ℤ) + (appS1.random_var_3 : ℤ)) = 0 := by decide
  rw [e1, e2, e3, e4, winDraw_const O hO 4 0, winDraw_const O hO 5 0]
  decide

theorem rand_total_time_of_use_eval (ft fc : Nat) (tfrv : ℚ)
    (rw1 rw2 rw3 : ℤ × ℤ) (varU timeU : ℚ → ℚ → ℚ) (rt0 : ℤ)
    (h0 : pyRound (timeU (ft : ℚ)
      ((pyInt ((ft : ℚ) * random_variation varU tfrv 1)) : ℚ)) = rt0)
    (h1 : ¬ rt0 < (fc : ℤ))
    (total : ℤ)
    (htot : (rw1.2 - rw1.1) + (rw2.2 - rw2.1) + (rw3.2 - rw3.1) = total)
    (hcap : (99/100 : ℚ) * (total : ℚ) < (rt0 : ℚ))
    (rt2 : ℤ) (h2 : pyInt ((99/100 : ℚ) * (total : ℚ)) = rt2)
    (h3 : ¬ rt2 < (fc : ℤ)) :
    rand_total_time_of_use ft fc tfrv rw1 rw2 rw3 varU timeU =
      .ok rt2.toNat := by
  simp only [rand_total_time_of_use]
  rw [h0, if_neg h1, htot, if_pos hcap, h2, if_neg h3]

theorem rand_total_appS1 (O : Oracle) (hO : O.Conformant) :
    rand_total_time_of_use appS1.func_time appS1.func_cycle
      appS1.time_fraction_random_variability ((480 : ℤ), (600 : ℤ))
      ((0 : ℤ), (0 : ℤ)) ((0 : ℤ), (0 : ℤ)) O.varU O.timeU = .ok 118 := by
  have hvar : random_variation O.varU appS1.time_fraction_random_variability 1
      = 1 := by
    rw [random_variation, if_neg]
    show ¬(0 : ℚ) < 0
    norm_num
  have hft : ((appS1.func_time : ℕ) : ℚ) = 120 := by norm_num [appS1, appW]
  have hint : pyInt ((appS1.func_time : ℚ) *
      random_variation O.varU appS1.time_fraction_random_variability 1)
      = 120 := by
    rw [hvar, mul_one, hft]
    have h : (120 : ℚ) = ((120 : ℕ) : ℚ) := by norm_num
    rw [h, pyInt_natCast]
    norm_num
  have htu : O.timeU ((appS1.func_time : ℕ) : ℚ)
      ((pyInt ((appS1.func_time : ℚ) *
        random_variation O.varU appS1.time_fraction_random_variability 1) : ℤ)
        : ℚ) = 120 := by
    rw [hint, hft]
    have he : (((120 : ℤ) : ℚ)) = (120 : ℚ) := by norm_num
    have h1 := (hO.2.2.2.2.1 (120 : ℚ) (((120 : ℤ) : ℚ))).1
    have h2 := (hO.2.2.2.2.1 (120 : ℚ) (((120 : ℤ) : ℚ))).2
    rw [he, min_self] at h1
    rw [he, max_self] at h2
    rw [he]
    exact le_antisymm h2 h1
  have h0 : pyRound (O.timeU ((appS1.func_time : ℕ) : ℚ)
      ((pyInt ((appS1.func_time : ℚ) *
        random_variation O.varU appS1.time_fraction_random_variability 1) : ℤ)
        : ℚ)) = 120 := by
    rw [htu]
    have h : (120 : ℚ) = ((120 : ℕ) : ℚ) := by norm_num
    rw [h, pyRound_natCast]
    norm_num
  have h2 : pyInt ((99/100 : ℚ) * (((120 : ℤ) : ℚ))) = 118 := by
    have he : (((120 : ℤ) : ℚ)) = (120 : ℚ) := by norm_num
    rw [he, pyInt, if_pos (by norm_num)]
    rw [Int.floor_eq_iff]
    constructor <;> norm_num
  have hres := rand_total_time_of_use_eval appS1.func_time appS1.func_cycle
    appS1.time_fraction_random_variability ((480 : ℤ), (600 : ℤ))
    ((0 : ℤ), (0 : ℤ)) ((0 : ℤ), (0 : ℤ)) O.varU O.timeU 120 h0
    (by decide) 120 (by decide) (by norm_num) 118 h2 (by decide)
  rw [hres]
  rfl

/--
Claim C6: if `flat == 'yes'` and the appliance passes all eligibility
checks, `generate_load_profile` sets `daily_use` to `power[prof_i] *
number` at every minute of each jittered window and 0 at every other
minute, with no duty cycle, no coincidence draw and no switch-on events;
in the concrete scenario S1 (`number = 2`, `power = 100`, single window
`[480, 600)`, `func_time = 120`, `flat = yes`) every minute of
`[480, 600)` equals 200 and the daily sum is 24000.
-/
theorem claim_C6_flat (O : Oracle) (hO : O.Conformant) (pF pL : ℤ)
    (sp mp opf : ℚ) :
    (∀ (app : Appliance) (up : Nat) (dt : DayTypeArg) (power : ℚ)
      (Og : Oracle) (rt : Nat),
      app.flat = true →
      ¬(app.occasional_use < Og.occ ∨
        (app.pref_index ≠ 0 ∧
          (if up = 0 then 0 else Og.pref up) ≠ app.pref_index) ∨
        wdWeMatches app.wd_we_type dt = false) →
      rand_total_time_of_use app.func_time app.func_cycle
        app.time_fraction_random_variability (rand_window_1 app Og)
        (rand_window_2 app Og) (rand_window_3 app Og) Og.varU Og.timeU =
          .ok rt →
      (∀ rw ∈ [rand_window_1 app Og, rand_window_2 app Og,
        rand_window_3 app Og], rw.1 ≤ rw.2) →
      ∃ f, generate_load_profile app up pF pL dt power sp mp opf Og =
          .ok (f, []) ∧
        ∀ t, f t = if memZ t [rand_window_1 app Og, rand_window_2 app Og,
          rand_window_3 app Og] then power * (app.number : ℚ) else 0) ∧
    (∃ g, generate_load_profile appS1 0 pF pL (.scalar 0) 100 sp mp opf O =
        .ok (g, []) ∧
      (∀ t, 480 ≤ t → t < 600 → g t = 200) ∧
      (∀ t, t < 1440 → ¬(480 ≤ t ∧ t < 600) → g t = 0) ∧
      ∑ t in Finset.range 1440, g t = 24000) := by
  constructor
  · intro app up dt power Og rt hflat helig hrt hwf
    exact generate_load_profile_flat app up pF pL dt power sp mp opf Og hflat
      helig rt hrt hwf
  · have hw1 := rand_window_1_appS1 O hO
    have hw2 := rand_window_2_appS1 O hO
    have hw3 := rand_window_3_appS1 O hO
    have helig : ¬(appS1.occasional_use < O.occ ∨
        (appS1.pref_index ≠ 0 ∧
          (if (0 : Nat) = 0 then 0 else O.pref 0) ≠ appS1.pref_index) ∨
        wdWeMatches appS1.wd_we_type (.scalar 0) = false) := by
      rintro (h | ⟨h, _⟩ | h)
      · exact absurd h (not_lt.mpr hO.1.2)
      · exact h rfl
      · exact absurd h (by decide)
    have hrt : rand_total_time_of_use appS1.func_time appS1.func_cycle
        appS1.time_fraction_random_variability (rand_window_1 appS1 O)
        (rand_window_2 appS1 O) (rand_window_3 appS1 O) O.varU O.timeU =
        .ok 118 := by
      rw [hw1, hw2, hw3]
      exact rand_total_appS1 O hO
    have hwf : ∀ rw ∈ [rand_window_1 appS1 O, rand_window_2 appS1 O,
        rand_window_3 appS1 O], rw.1 ≤ rw.2 := by
      rw [hw1, hw2, hw3]
      decide
    obtain ⟨g, hg, hgchar⟩ := generate_load_profile_flat appS1 0 pF pL
      (.scalar 0) 100 sp mp opf O rfl helig 118 hrt hwf
    simp only [hw1, hw2, hw3] at hgchar
    have hnum : (appS1.number : ℚ) = 2 := by norm_num [appS1, appW]
    have hmemt : ∀ t : Nat, memZ t [((480 : ℤ), (600 : ℤ)),
        ((0 : ℤ), (0 : ℤ)), ((0 : ℤ), (0 : ℤ))] ↔ (480 ≤ t ∧ t < 600) := by
      intro t
      unfold memZ
      simp only [List.mem_cons, List.not_mem_nil, or_false]
      constructor
      · rintro ⟨rw, (rfl | rfl | rfl), h1, h2⟩ <;> omega
      · intro h
        exact ⟨((480 : ℤ), (600 : ℤ)), Or.inl rfl, by omega, by omega⟩
    refine ⟨g, hg, ?_, ?_, ?_⟩
    · intro t h1 h2
      rw [hgchar t, if_pos ((hmemt t).mpr ⟨h1, h2⟩), hnum]
      norm_num
    · intro t _ hn
      rw [hgchar t, if_neg (fun hc => hn ((hmemt t).mp hc))]
    · have hg' : ∀ t ∈ Finset.range 1440, g t =
          if t ∈ Finset.Ico 480 600 then (200 : ℚ) else 0 := by
        intro t _
        rw [hgchar t, hnum]
        by_cases hc : t ∈ Finset.Ico 480 600
        · rw [if_pos ((hmemt t).mpr (Finset.mem_Ico.mp hc)), if_pos hc]
          norm_num
        · rw [if_neg (fun hh => hc (Finset.mem_Ico.mpr ((hmemt t).mp hh))),
            if_neg hc]
      rw [Finset.sum_congr rfl hg', Finset.sum_ite_mem]
      have hsub : Finset.Ico 480 600 ⊆ Finset.range 1440 := by
        intro x hx
        rw [Finset.mem_Ico] at hx
        rw [Finset.mem_range]
        omega
      rw [Finset.inter_eq_right.mpr hsub, Finset.sum_const, Nat.card_Ico]
      norm_num

theorem claim_C6_flat_witness :
    (∀ (app : Appliance) (up : Nat) (dt : DayTypeArg) (power : ℚ)
      (Og : Oracle) (rt : Nat),
      app.flat = true →
      ¬(app.occasional_use < Og.occ ∨
        (app.pref_index ≠ 0 ∧
          (if up = 0 then 0 else Og.pref up) ≠ app.pref_index) ∨
        wdWeMatches app.wd_we_type dt = false) →
      rand_total_time_of_use app.func_time app.func_cycle
        app.time_fraction_random_variability (rand_window_1 app Og)
        (rand_window_2 app Og) (rand_window_3 app Og) Og.varU Og.timeU =
          .ok rt →
      (∀ rw ∈ [rand_window_1 app Og, rand_window_2 app Og,
        rand_window_3 app Og], rw.1 ≤ rw.2) →
      ∃ f, generate_load_profile app up 7 9 dt power 0 0 0 Og =
          .ok (f, []) ∧
        ∀ t, f t = if memZ t [rand_window_1 app Og, rand_window_2 app Og,
          rand_window_3 app Og] then power * (app.number : ℚ) else 0) ∧
    (∃ g, generate_load_profile appS1 0 7 9 (.scalar 0) 100 0 0 0 O0 =
        .ok (g, []) ∧
      (∀ t, 480 ≤ t → t < 600 → g t = 200) ∧
      (∀ t, t < 1440 → ¬(480 ≤ t ∧ t < 600) → g t = 0) ∧
      ∑ t in Finset.range 1440, g t = 24000) :=
  claim_C6_flat O0 O0_conformant 7 9 0 0 0

/--
Claim C10: for a non-flat appliance passing all eligibility checks, every
minute inside a jittered window that is covered by no switch-on event
still holds the sentinel 0.001 in `daily_use` after
`generate_load_profile` returns, and the per-user accumulation
(`single_load += App.daily_use`) carries the 0.001 value unchanged into
the user profile.
-/
theorem claim_C10_sentinel (app : Appliance) (up : Nat) (pF pL : ℤ)
    (dt : DayTypeArg) (power sp mp opf : ℚ) (O : Oracle)
    (hflat : app.flat = false)
    (helig : ¬(app.occasional_use < O.occ ∨
      (app.pref_index ≠ 0 ∧
        (if up = 0 then 0 else O.pref up) ≠ app.pref_index) ∨
      wdWeMatches app.wd_we_type dt = false))
    (rt : Nat)
    (hrt : rand_total_time_of_use app.func_time app.func_cycle
      app.time_fraction_random_variability (rand_window_1 app O)
      (rand_window_2 app O) (rand_window_3 app O) O.varU O.timeU = .ok rt)
    (hwf : ∀ rw ∈ [rand_window_1 app O, rand_window_2 app O,
      rand_window_3 app O], rw.1 ≤ rw.2) :
    ∃ du chosen,
      generate_load_profile app up pF pL dt power sp mp opf O =
        .ok (du, chosen) ∧
      (∀ t, memZ t [rand_window_1 app O, rand_window_2 app O,
          rand_window_3 app O] →
        (∀ p ∈ chosen, ¬(p.1 ≤ t ∧ t < p.1 + p.2)) →
        du t = 1/1000) ∧
      (∀ d (Os : Nat → Oracle), d < 365 → Os 0 = O →
        app.power.getD d 0 = power →
        ∃ F, generate_single_load_profile ⟨up, 1, [app]⟩ d pF pL dt
            sp mp opf Os = .ok F ∧
          ∀ t, memZ t [rand_window_1 app O, rand_window_2 app O,
              rand_window_3 app O] →
            (∀ p ∈ chosen, ¬(p.1 ≤ t ∧ t < p.1 + p.2)) →
            F t = 1/1000 + 0) := by
  obtain ⟨masked, hf, hchar⟩ := fill_windows_char (fun _ => 0) (1/1000) _ hwf
  have hgen : generate_load_profile app up pF pL dt power sp mp opf O =
      .ok ((switch_on_loop app rt pF pL power sp mp opf O (rt + 1) 0 0 masked
        (free_spots_init [rand_window_1 app O, rand_window_2 app O,
          rand_window_3 app O])).1,
        (switch_on_loop app rt pF pL power sp mp opf O (rt + 1) 0 0 masked
        (free_spots_init [rand_window_1 app O, rand_window_2 app O,
          rand_window_3 app O])).2.2) := by
    simp only [generate_load_profile]
    rw [if_neg helig, hrt]
    simp only []
    rw [if_neg (by rw [hflat]; exact Bool.false_ne_true), hf]
  have hout : ∀ t, memZ t [rand_window_1 app O, rand_window_2 app O,
      rand_window_3 app O] →
      (∀ p ∈ (switch_on_loop app rt pF pL power sp mp opf O (rt + 1) 0 0 masked
        (free_spots_init [rand_window_1 app O, rand_window_2 app O,
          rand_window_3 app O])).2.2, ¬(p.1 ≤ t ∧ t < p.1 + p.2)) →
      (switch_on_loop app rt pF pL power sp mp opf O (rt + 1) 0 0 masked
        (free_spots_init [rand_window_1 app O, rand_window_2 app O,
          rand_window_3 app O])).1 t = 1/1000 := by
    intro t hm hn
    rw [switch_on_loop_daily_use_outside app rt pF pL power sp mp opf O
      (rt + 1) 0 0 masked _ t hn]
    rw [hchar t, if_pos hm]
  refine ⟨_, _, hgen, hout, ?_⟩
  intro d Os hd hOs hpow
  refine ⟨fun t => (switch_on_loop app rt pF pL power sp mp opf O (rt + 1) 0 0
      masked (free_spots_init [rand_window_1 app O, rand_window_2 app O,
        rand_window_3 app O])).1 t + 0, ?_, ?_⟩
  · rw [generate_single_load_profile, if_pos hd]
    show sum_app_loads up d pF pL dt sp mp opf [app] Os = _
    rw [sum_app_loads, hOs, hpow, hgen]
    simp only []
    rw [sum_app_loads]
  · intro t hm hn
    show (switch_on_loop app rt pF pL power sp mp opf O (rt + 1) 0 0 masked
        (free_spots_init [rand_window_1 app O, rand_window_2 app O,
          rand_window_3 app O])).1 t + (fun _ => (0 : ℚ)) t = 1/1000 + 0
    rw [hout t hm hn]

theorem rand_window_1_appW : rand_window_1 appW O0 = ((0 : ℤ), (10 : ℤ)) := by
  decide

theorem rand_window_2_appW : rand_window_2 appW O0 = ((0 : ℤ), (0 : ℤ)) := by
  decide

theorem rand_window_3_appW : rand_window_3 appW O0 = ((0 : ℤ), (0 : ℤ)) := by
  decide

theorem rand_total_appW :
    rand_total_time_of_use appW.func_time appW.func_cycle
      appW.time_fraction_random_variability ((0 : ℤ), (10 : ℤ))
      ((0 : ℤ), (0 : ℤ)) ((0 : ℤ), (0 : ℤ)) O0.varU O0.timeU = .ok 9 := by
  have hvar : random_variation O0.varU appW.time_fraction_random_variability 1
      = 1 := by
    rw [random_variation, if_neg]
    show ¬(0 : ℚ) < 0
    norm_num
  have hft : ((appW.func_time : ℕ) : ℚ) = 10 := by norm_num [appW]
  have hint : pyInt ((appW.func_time : ℚ) *
      random_variation O0.varU appW.time_fraction_random_variability 1)
      = 10 := by
    rw [hvar, mul_one, hft]
    have h : (10 : ℚ) = ((10 : ℕ) : ℚ) := by norm_num
    rw [h, pyInt_natCast]
    norm_num
  have h0 : pyRound (O0.timeU ((appW.func_time : ℕ) : ℚ)
      ((pyInt ((appW.func_time : ℚ) *
        random_variation O0.varU appW.time_fraction_random_variability 1) : ℤ)
        : ℚ)) = 10 := by
    show pyRound (min ((appW.func_time : ℕ) : ℚ) _) = 10
    rw [hint, hft]
    have he : (((10 : ℤ) : ℚ)) = (10 : ℚ) := by norm_num
    rw [he, min_self]
    have h : (10 : ℚ) = ((10 : ℕ) : ℚ) := by norm_num
    rw [h, pyRound_natCast]
    norm_num
  have h2 : pyInt ((99/100 : ℚ) * (((10 : ℤ) : ℚ))) = 9 := by
    have he : (((10 : ℤ) : ℚ)) = (10 : ℚ) := by norm_num
    rw [he, pyInt, if_pos (by norm_num)]
    rw [Int.floor_eq_iff]
    constructor <;> norm_num
  have hres := rand_total_time_of_use_eval appW.func_time appW.func_cycle
    appW.time_fraction_random_variability ((0 : ℤ), (10 : ℤ))
    ((0 : ℤ), (0 : ℤ)) ((0 : ℤ), (0 : ℤ)) O0.varU O0.timeU 10 h0
    (by decide) 10 (by decide) (by norm_num) 9 h2 (by decide)
  rw [hres]
  rfl

theorem claim_C10_sentinel_witness :
    ∃ du chosen,
      generate_load_profile appW 0 7 9 (.scalar 0) 1 0 0 0 O0 =
        .ok (du, chosen) ∧
      (∀ t, memZ t [rand_window_1 appW O0, rand_window_2 appW O0,
          rand_window_3 appW O0] →
        (∀ p ∈ chosen, ¬(p.1 ≤ t ∧ t < p.1 + p.2)) →
        du t = 1/1000) ∧
      (∀ d (Os : Nat → Oracle), d < 365 → Os 0 = O0 →
        appW.power.getD d 0 = 1 →
        ∃ F, generate_single_load_profile ⟨0, 1, [appW]⟩ d 7 9 (.scalar 0)
            0 0 0 Os = .ok F ∧
          ∀ t, memZ t [rand_window_1 appW O0, rand_window_2 appW O0,
              rand_window_3 appW O0] →
            (∀ p ∈ chosen, ¬(p.1 ≤ t ∧ t < p.1 + p.2)) →
            F t = 1/1000 + 0) :=
  claim_C10_sentinel appW 0 7 9 (.scalar 0) 1 0 0 0 O0 rfl
    (by
      rintro (h | ⟨h, _⟩ | h)
      · exact absurd h (by show ¬(1 : ℚ) < 0; norm_num)
      · exact h rfl
      · exact absurd h (by decide))
    9
    (by rw [rand_window_1_appW, rand_window_2_appW, rand_window_3_appW]
        exact rand_total_appW)
    (by rw [rand_window_1_appW, rand_window_2_appW, rand_window_3_appW]
        decide)

/-- The call `app.generate_load_profile(prof_i, peak_time_range,
day_type, power=app.power[prof_i])` made for one appliance succeeds. -/
def okLeaf (up : Nat) (pF pL : ℤ) (dt : DayTypeArg) (d : Nat)
    (sp mp opf : ℚ) (a : Appliance) (O : Oracle) : Prop :=
  ∃ r, generate_load_profile a up pF pL dt (a.power.getD d 0) sp mp opf O =
    .ok r

/-- The `daily_use` profile one appliance call contributes (0 if the call
fails; only read where `okLeaf` holds). -/
def leafVal (up : Nat) (pF pL : ℤ) (dt : DayTypeArg) (d : Nat)
    (sp mp opf : ℚ) (a : Appliance) (O : Oracle) (t : Nat) : ℚ :=
  match generate_load_profile a up pF pL dt (a.power.getD d 0) sp mp opf O
      with
  | .error _ => 0
  | .ok r => r.1 t

theorem sum_app_loads_char (up d : Nat) (pF pL : ℤ) (dt : DayTypeArg)
    (sp mp opf : ℚ) :
    ∀ (apps : List Appliance) (Os : Nat → Oracle),
      (∀ i, i < apps.length →
        okLeaf up pF pL dt d sp mp opf (apps.getD i appW) (Os i)) →
      ∃ f, sum_app_loads up d pF pL dt sp mp opf apps Os = .ok f ∧
        ∀ t, f t = ∑ i in Finset.range apps.length,
          leafVal up pF pL dt d sp mp opf (apps.getD i appW) (Os i) t := by
  intro apps
  induction apps with
  | nil => intro Os _; exact ⟨fun _ => 0, rfl, by simp⟩
  | cons a rest ih =>
    intro Os hok
    have hok0 : okLeaf up pF pL dt d sp mp opf a (Os 0) := by
      have h := hok 0 (by simp)
      simpa using h
    obtain ⟨r, hr⟩ := hok0
    obtain ⟨g, hg, hgchar⟩ := ih (fun i => Os (i + 1)) (fun i hi => by
      have h := hok (i + 1) (by simpa using Nat.succ_lt_succ hi)
      simpa using h)
    refine ⟨fun t => r.1 t + g t, ?_, ?_⟩
    · rw [sum_app_loads, hr]
      simp only []
      rw [hg]
    · intro t
      show r.1 t + g t = _
      simp only [List.length_cons]
      rw [Finset.sum_range_succ']
      have h0 : leafVal up pF pL dt d sp mp opf ((a :: rest).getD 0 appW)
          (Os 0) t = r.1 t := by
        show leafVal up pF pL dt d sp mp opf a (Os 0) t = r.1 t
        unfold leafVal
        rw [hr]
      have h1 : (∑ i in Finset.range rest.length,
          leafVal up pF pL dt d sp mp opf ((a :: rest).getD (i + 1) appW)
            (Os (i + 1)) t) = g t := by
        rw [hgchar t]
        apply Finset.sum_congr rfl
        intro i _
        rw [List.getD_cons_succ]
      rw [h0, h1]
      exact add_comm _ _

theorem sum_member_loads_char (u : User) (d : Nat) (pF pL : ℤ)
    (dt : DayTypeArg) (sp mp opf : ℚ) (hd : d < 365) :
    ∀ (N : Nat) (Os2 : Nat → Nat → Oracle),
      (∀ c, c < N → ∀ i, i < u.apps.length →
        okLeaf u.user_preference pF pL dt d sp mp opf (u.apps.getD i appW)
          (Os2 c i)) →
      ∃ f, sum_member_loads u d pF pL dt sp mp opf N Os2 = .ok f ∧
        ∀ t, f t = ∑ c in Finset.range N,
          ∑ i in Finset.range u.apps.length,
            leafVal u.user_preference pF pL dt d sp mp opf
              (u.apps.getD i appW) (Os2 c i) t := by
  intro N
  induction N with
  | zero => intro Os2 _; exact ⟨fun _ => 0, rfl, by simp⟩
  | succ n ih =>
    intro Os2 hok
    obtain ⟨f0, hf0, hf0char⟩ := sum_app_loads_char u.user_preference d pF
      pL dt sp mp opf u.apps (Os2 0) (fun i hi => hok 0 (Nat.succ_pos n) i hi)
    obtain ⟨g, hg, hgchar⟩ := ih (fun c => Os2 (c + 1))
      (fun c hc i hi => hok (c + 1) (Nat.succ_lt_succ hc) i hi)
    refine ⟨fun t => f0 t + g t, ?_, ?_⟩
    · rw [sum_member_loads]
      have hsingle : generate_single_load_profile u d pF pL dt sp mp opf
          (Os2 0) = .ok f0 := by
        rw [generate_single_load_profile, if_pos hd]
        exact hf0
      rw [hsingle]
      simp only []
      rw [hg]
    · intro t
      show f0 t + g t = _
      rw [Finset.sum_range_succ', hgchar t, hf0char t]
      exact add_comm _ _

theorem par_copies_char (u : User) (d dtv : Nat) (pF pL : ℤ)
    (sp mp opf : ℚ) (a : Appliance) (appIdx : Nat)
    (Os2 : Nat → Nat → Oracle)
    (hok : ∀ c, c < u.num_users →
      okLeaf u.user_preference pF pL (.scalar dtv) d sp mp opf a
        (Os2 c appIdx)) :
    ∀ m, m ≤ u.num_users →
      ∃ f, par_copies u d dtv pF pL sp mp opf a appIdx Os2 m = .ok f ∧
        ∀ t, f t = ∑ c in Finset.Ico (u.num_users - m) u.num_users,
          leafVal u.user_preference pF pL (.scalar dtv) d sp mp opf a
            (Os2 c appIdx) t := by
  intro m
  induction m with
  | zero =>
    intro _
    refine ⟨fun _ => 0, rfl, ?_⟩
    intro t
    rw [Nat.sub_zero, Finset.Ico_self, Finset.sum_empty]
  | succ n ih =>
    intro hm
    obtain ⟨r, hr⟩ := hok (u.num_users - (n + 1)) (by omega)
    obtain ⟨g, hg, hgchar⟩ := ih (by omega)
    refine ⟨fun t => r.1 t + g t, ?_, ?_⟩
    · rw [par_copies, hr]
      simp only []
      rw [hg]
    · intro t
      show r.1 t + g t = _
      have hins : Finset.Ico (u.num_users - (n + 1)) u.num_users =
          insert (u.num_users - (n + 1))
            (Finset.Ico (u.num_users - n) u.num_users) := by
        ext x
        simp only [Finset.mem_Ico, Finset.mem_insert]
        omega
      rw [hins, Finset.sum_insert (by
        intro hmem
        rw [Finset.mem_Ico] at hmem
        omega)]
      rw [hgchar t]
      have hl : leafVal u.user_preference pF pL (.scalar dtv) d sp mp opf a
          (Os2 (u.num_users - (n + 1)) appIdx) t = r.1 t := by
        unfold leafVal
        rw [hr]
      rw [hl]

theorem par_apps_char (u : User) (d dtv : Nat) (pF pL : ℤ)
    (sp mp opf : ℚ) :
    ∀ (apps : List Appliance) (appIdx : Nat) (Os2 : Nat → Nat → Oracle),
      (∀ c, c < u.num_users → ∀ i, i < apps.length →
        okLeaf u.user_preference pF pL (.scalar dtv) d sp mp opf
          (apps.getD i appW) (Os2 c (appIdx + i))) →
      ∃ f, par_apps u d dtv pF pL sp mp opf apps appIdx Os2 = .ok f ∧
        ∀ t, f t = ∑ i in Finset.range apps.length,
          ∑ c in Finset.range u.num_users,
            leafVal u.user_preference pF pL (.scalar dtv) d sp mp opf
              (apps.getD i appW) (Os2 c (appIdx + i)) t := by
  intro apps
  induction apps with
  | nil => intro appIdx Os2 _; exact ⟨fun _ => 0, rfl, by simp⟩
  | cons a rest ih =>
    intro appIdx Os2 hok
    have hok0 : ∀ c, c < u.num_users →
        okLeaf u.user_preference pF pL (.scalar dtv) d sp mp opf a
          (Os2 c appIdx) := by
      intro c hc
      have h := hok c hc 0 (by simp)
      simpa using h
    obtain ⟨f0, hf0, hf0char⟩ := par_copies_char u d dtv pF pL sp mp opf a
      appIdx Os2 hok0 u.num_users (le_refl _)
    obtain ⟨g, hg, hgchar⟩ := ih (appIdx + 1) Os2 (fun c hc i hi => by
      have h := hok c hc (i + 1) (by simpa using Nat.succ_lt_succ hi)
      rw [List.getD_cons_succ] at h
      have e : appIdx + (i + 1) = appIdx + 1 + i := by omega
      rw [e] at h
      exact h)
    refine ⟨fun t => f0 t + g t, ?_, ?_⟩
    · rw [par_apps, hf0]
      simp only []
      rw [hg]
    · intro t
      show f0 t + g t = _
      simp only [List.length_cons]
      rw [Finset.sum_range_succ']
      have h0 : (∑ c in Finset.range u.num_users,
          leafVal u.user_preference pF pL (.scalar dtv) d sp mp opf
            ((a :: rest).getD 0 appW) (Os2 c (appIdx + 0)) t) = f0 t := by
        rw [hf0char t, Nat.sub_self, ← Finset.range_eq_Ico]
        apply Finset.sum_congr rfl
        intro c _
        rw [List.getD_cons_zero, Nat.add_zero]
      have h1 : (∑ i in Finset.range rest.length,
          ∑ c in Finset.range u.num_users,
            leafVal u.user_preference pF pL (.scalar dtv) d sp mp opf
              ((a :: rest).getD (i + 1) appW) (Os2 c (appIdx + (i + 1))) t)
          = g t := by
        rw [hgchar t]
        apply Finset.sum_congr rfl
        intro i _
        apply Finset.sum_congr rfl
        intro c _
        have e : appIdx + 1 + i = appIdx + (i + 1) := by omega
        rw [e, List.getD_cons_succ]
      rw [h0, h1]
      exact add_comm _ _

/--
Claim C9 (corrected): the two modes are NOT equivalent as written — the
sequential driver hands its whole `day_types` argument (a list) to the
eligibility test unindexed, where `wd_we_type in [day_type, 2]` can then
only match via the literal 2 (first conjunct), while the parallel driver
indexes `day_types[day_id]` first.  The modes are equivalent once the
sequential mode is also given the indexed scalar day type: per user and
day, with every appliance call succeeding, the appliance eligibility test
sees the same scalar in both modes and the two results are pointwise
equal sums of the same multiset of per-(copy, appliance) profiles
(second conjunct).
-/
theorem claim_C9_parallel_equivalence :
    (∀ (wd : Nat) (l : List Nat), wdWeMatches wd (.seq l) = (wd == 2)) ∧
    (∀ (u : User) (d dtv : Nat) (pF pL : ℤ) (sp mp opf : ℚ)
      (Os2 : Nat → Nat → Oracle),
      d < 365 →
      (∀ c, c < u.num_users → ∀ i, i < u.apps.length →
        okLeaf u.user_preference pF pL (.scalar dtv) d sp mp opf
          (u.apps.getD i appW) (Os2 c i)) →
      ∃ f g,
        generate_aggregated_load_profile u d pF pL (.scalar dtv) sp mp opf
          Os2 = .ok f ∧
        par_user_day_load u d dtv pF pL sp mp opf Os2 = .ok g ∧
        ∀ t, f t = g t) := by
  constructor
  · intro wd l
    have h : (DayTypeArg.seq l == DayTypeArg.scalar wd) = false := by
      rw [beq_eq_false_iff_ne]
      intro h
      exact DayTypeArg.noConfusion h
    rw [wdWeMatches, h, Bool.false_or]
  · intro u d dtv pF pL sp mp opf Os2 hd hok
    obtain ⟨f, hf, hfchar⟩ := sum_member_loads_char u d pF pL (.scalar dtv)
      sp mp opf hd u.num_users Os2 hok
    obtain ⟨g, hg, hgchar⟩ := par_apps_char u d dtv pF pL sp mp opf u.apps 0
      Os2 (fun c hc i hi => by
        have h := hok c hc i hi
        rw [Nat.zero_add]
        exact h)
    refine ⟨f, g, ?_, ?_, ?_⟩
    · rw [generate_aggregated_load_profile, if_pos hd]
      exact hf
    · rw [par_user_day_load]
      exact hg
    · intro t
      rw [hfchar t, hgchar t, Finset.sum_comm]
      apply Finset.sum_congr rfl
      intro i _
      apply Finset.sum_congr rfl
      intro c _
      rw [Nat.zero_add]

/-- The divergence input of claim C9: `day_types = [0]`, day 0, an
appliance with `wd_we_type = 0`.  The sequential mode tests the unindexed
list and skips the appliance; indexing first (as the parallel mode does)
accepts it. -/
theorem claim_C9_counterexample :
    wdWeMatches 0 (DayTypeArg.seq [0]) = false ∧
    wdWeMatches 0 (DayTypeArg.scalar (([0] : List Nat).getD 0 0)) = true := by
  decide

/-- A one-member user owning the S1 appliance, for the C9 witness. -/
def userC9 : User := ⟨0, 1, [appS1]⟩

theorem claim_C9_parallel_equivalence_witness :
    wdWeMatches 3 (DayTypeArg.seq [0, 1]) = (3 == 2) ∧
    (∃ f g,
      generate_aggregated_load_profile userC9 0 7 9 (.scalar 0) 0 0 0
        (fun _ _ => O0) = .ok f ∧
      par_user_day_load userC9 0 0 7 9 0 0 0 (fun _ _ => O0) = .ok g ∧
      ∀ t, f t = g t) :=
  ⟨claim_C9_parallel_equivalence.1 3 [0, 1],
   claim_C9_parallel_equivalence.2 userC9 0 0 7 9 0 0 0 (fun _ _ => O0)
     (by omega)
     (by
       intro c hc i hi
       have hi1 : i < 1 := by simpa [userC9] using hi
       have hi0 : i = 0 := by omega
       subst hi0
       have helig : ¬(appS1.occasional_use < O0.occ ∨
           (appS1.pref_index ≠ 0 ∧
             (if (0 : Nat) = 0 then 0 else O0.pref 0) ≠ appS1.pref_index) ∨
           wdWeMatches appS1.wd_we_type (.scalar 0) = false) := by
         rintro (h | ⟨h, _⟩ | h)
         · exact absurd h (by show ¬(1 : ℚ) < 0; norm_num)
         · exact h rfl
         · exact absurd h (by decide)
       have hrt : rand_total_time_of_use appS1.func_time appS1.func_cycle
           appS1.time_fraction_random_variability (rand_window_1 appS1 O0)
           (rand_window_2 appS1 O0) (rand_window_3 appS1 O0) O0.varU
           O0.timeU = .ok 118 := by
         rw [rand_window_1_appS1 O0 O0_conformant,
           rand_window_2_appS1 O0 O0_conformant,
           rand_window_3_appS1 O0 O0_conformant]
         exact rand_total_appS1 O0 O0_conformant
       have hwf : ∀ rw ∈ [rand_window_1 appS1 O0, rand_window_2 appS1 O0,
           rand_window_3 appS1 O0], rw.1 ≤ rw.2 := by
         rw [rand_window_1_appS1 O0 O0_conformant,
           rand_window_2_appS1 O0 O0_conformant,
           rand_window_3_appS1 O0 O0_conformant]
         decide
       obtain ⟨fW, hfW, _⟩ := generate_load_profile_flat appS1 0 7 9
         (.scalar 0) (appS1.power.getD 0 0) 0 0 0 O0 rfl helig 118 hrt hwf
       exact ⟨(fW, []), hfW⟩)⟩

end RAMP
